import Mathlib

/-! react-tween-state: the tween-queue engine of `src/index.js`

A shallow embedding of the registration (`_tweenState`), the sampler
(`_getTweeningValue`) and the frame tick (`_rafCb`) of the mixin, followed by
the properties proved about them.

Conventions of the embedding.

* JavaScript numbers are idealised: finite numbers are rationals, and the
  special values `NaN`, `Infinity`, `-Infinity` and `undefined` are kept as
  separate constructors of `Val`; signed zeros are not distinguished, and
  `null` is not a value of a field.  The arithmetic of `Val` is exact where
  the program rounds, so the properties below are stated operation for
  operation, in the order in which the source computes, and use no law of
  arithmetic that rounding breaks: only `-e + x = x - e`, `-e + e = 0` and
  `x + 0 = x`, and the evaluation of sums and quotients of small integers.
* A container object of the host state is a reference `Ref`; the strict
  comparison `!==` of two containers is inequality of references.  A locator
  maps the store to a reference, or to `none` when it yields
  `null`/`undefined`.
* The queue lives under the reserved key `tweenQueue`; field names range over
  the other keys.
* `Date.now()` is an explicit argument `now`.
* The receiver of the sampler and of the tick and the `instance` argument of
  the registration are the same host.
-/

namespace TweenState

/-! ## Values -/

/-- JavaScript values that can sit in an animated field: `undefined`, `NaN`,
the two infinities (`neg = true` is `-Infinity`) and finite numbers. -/
inductive Val where
  | undef
  | nan
  | inf (neg : Bool)
  | num (q : ℚ)
  deriving DecidableEq

namespace Val

/-- Binary `+` of JavaScript on numbers; `undefined` converts to `NaN`. -/
def add : Val → Val → Val
  | num a, num b => num (a + b)
  | num _, inf s => inf s
  | inf s, num _ => inf s
  | inf s, inf t => if s = t then inf s else nan
  | _, _ => nan

/-- Unary `-` of JavaScript. -/
def neg : Val → Val
  | num a => num (-a)
  | inf s => inf (!s)
  | _ => nan

/-- Binary `-` of JavaScript. -/
def sub : Val → Val → Val
  | num a, num b => num (a - b)
  | num _, inf s => inf (!s)
  | inf s, num _ => inf s
  | inf s, inf t => if s = t then nan else inf s
  | _, _ => nan

/-- Binary `*` of JavaScript. -/
def mul : Val → Val → Val
  | num a, num b => num (a * b)
  | num a, inf s => if a = 0 then nan else inf (xor s (decide (a < 0)))
  | inf s, num b => if b = 0 then nan else inf (xor s (decide (b < 0)))
  | inf s, inf t => inf (xor s t)
  | _, _ => nan

/-- Binary `/` of JavaScript: `0/0` is `NaN`, `x/0` is an infinity. -/
def div : Val → Val → Val
  | num a, num b =>
    if b = 0 then (if a = 0 then nan else inf (decide (a < 0))) else num (a / b)
  | num _, inf _ => num 0
  | inf s, num b => inf (xor s (decide (b < 0)))
  | _, _ => nan

/-- The comparison `<` of JavaScript: false as soon as one side is `NaN`. -/
def lt : Val → Val → Bool
  | num a, num b => decide (a < b)
  | num _, inf s => !s
  | inf s, num _ => s
  | inf s, inf t => s && !t
  | _, _ => false

end Val

/-! ## Easing functions (library `tween-functions`) -/

/-- An easing function `(t, b, c, d) ↦ value`: elapsed time, begin value, end
value, duration. -/
abbrev Easing := ℚ → Val → Val → ℚ → Val

/-- The easing `linear` of tween-functions:
`function(t, b, _c, d) { var c = _c - b; return c * t / d + b; }`. -/
def linear : Easing := fun t b _c d =>
  let c := Val.sub _c b
  Val.add (Val.div (Val.mul c (Val.num t)) (Val.num d)) b

/-- The easing `easeInOutQuad` of tween-functions:
`var c = _c - b; if ((t /= d / 2) < 1) return c / 2 * t * t + b;
 else return -c / 2 * ((--t) * (t - 2) - 1) + b;`. -/
def easeInOutQuad : Easing := fun t b _c d =>
  let c := Val.sub _c b
  let t1 := Val.div (Val.num t) (Val.div (Val.num d) (Val.num 2))
  if Val.lt t1 (Val.num 1) then
    Val.add (Val.mul (Val.mul (Val.div c (Val.num 2)) t1) t1) b
  else
    let t2 := Val.sub t1 (Val.num 1)
    Val.add
      (Val.mul (Val.div (Val.neg c) (Val.num 2))
        (Val.sub (Val.mul t2 (Val.sub t2 (Val.num 2))) (Val.num 1)))
      b

/-! ## Data model -/

/-- Identity of a container object of the host state. -/
abbrev Ref := Nat

/-- The containers of a state object: each reference maps field names to
values; an absent property reads `undefined`. -/
abbrev Store := Ref → String → Val

/-- A locator `stateRefFunc`: the container it picks in a state, `none` for
`null`/`undefined`. -/
abbrev Locator := Store → Option Ref

/-- The two stacking policies of `tweenState.stackBehavior`. -/
inductive StackBehavior where
  | ADDITIVE
  | DESTRUCTIVE
  deriving DecidableEq

/-- Line 8. -/
def DEFAULT_STACK_BEHAVIOR : StackBehavior := StackBehavior.ADDITIVE
/-- Line 9. -/
def DEFAULT_EASING : Easing := easeInOutQuad
/-- Line 10. -/
def DEFAULT_DURATION : ℚ := 300
/-- Line 11. -/
def DEFAULT_DELAY : ℚ := 0

/-- Lines 14-16: the locator used for a top-level field; the root state object
is the container `0`. -/
def returnState : Locator := fun _ => some 0

/-- The `config` argument of `tweenState` as the caller wrote it.  An option
left out is `none`; `beginValue` and `endValue` left out are `undefined`
(a `null` end value is not modelled).
`onEnd` names a callback by its index in the callback table. -/
structure Config where
  easing : Option Easing
  duration : Option ℚ
  delay : Option ℚ
  beginValue : Val
  endValue : Val
  onEnd : Option Nat
  stackBehavior : Option StackBehavior

/-- The normalised configuration `newConfig` of lines 55-63. -/
structure NewConfig where
  easing : Easing
  duration : ℚ
  delay : ℚ
  beginValue : Val
  endValue : Val
  onEnd : Option Nat
  stackBehavior : StackBehavior

/-- A queued request, lines 72-77. -/
structure Item where
  stateRefFunc : Locator
  stateName : String
  config : NewConfig
  initTime : ℚ

/-- A state object of the host: its containers, and the array stored under
`tweenQueue`.  `queueId` is the identity of that array object: `push` keeps
it, a freshly built array gets a new one. -/
structure State where
  store : Store
  tweenQueue : List Item
  queueId : Nat

/-- The host component as the engine sees it: committed state, the optional
`_pendingState` of old React, the answer of `isMounted()`, and the number of
frame callbacks handed to `requestAnimationFrame` that have not run yet. -/
structure Host where
  state : State
  _pendingState : Option State
  mounted : Bool
  rafPending : Nat

/-- Errors the engine can raise or let through. -/
inductive JSError where
  | typeError
  | thrown (cb : Nat)
  | outOfFuel
  deriving DecidableEq

/-- Property read `stateRef[stateName]`: a `TypeError` on `null`/`undefined`. -/
def getProp (store : Store) (stateRef : Option Ref) (stateName : String) : Except JSError Val :=
  match stateRef with
  | none => Except.error JSError.typeError
  | some ref => Except.ok (store ref stateName)

/-- Property write `stateRef[stateName] = v` on a resolved container. -/
def Store.set (store : Store) (ref : Ref) (stateName : String) (v : Val) : Store :=
  fun r n => if r = ref ∧ n = stateName then v else store r n

/-! ## Sampler -/

/-- Line 108: the test that makes the sampler skip an item. -/
def otherTarget (store : Store) (stateRef : Option Ref) (stateName : String) (item : Item) : Bool :=
  item.stateName != stateName || item.stateRefFunc store != stateRef

/-- Lines 112-114. -/
def progressTime (now : ℚ) (item : Item) : ℚ :=
  if now - item.initTime > item.config.duration then item.config.duration
  else max 0 (now - item.initTime)

/-- Lines 118-124. -/
def contrib (now : ℚ) (item : Item) : Val :=
  Val.add (Val.neg item.config.endValue)
    (item.config.easing (progressTime now item) item.config.beginValue
      item.config.endValue item.config.duration)

/-- Lines 99-129, with `Date.now()` passed as `now`. -/
def _getTweeningValue (self : Host) (stateRefFunc : Locator) (stateName : String) (now : ℚ) :
    Except JSError Val :=
  let state := self.state
  let stateRef := stateRefFunc state.store
  match getProp state.store stateRef stateName with
  | Except.error e => Except.error e
  | Except.ok base =>
    Except.ok (state.tweenQueue.foldl
      (fun tweeningValue item =>
        if otherTarget state.store stateRef stateName item then tweeningValue
        else Val.add tweeningValue (contrib now item))
      base)

/-- The target of lines 90-97: a field name alone, or a locator and a field
name. -/
inductive Target where
  | named (stateName : String)
  | located (stateRefFunc : Locator) (stateName : String)

/-- Lines 90-97. -/
def getTweeningValue (self : Host) (target : Target) (now : ℚ) : Except JSError Val :=
  match target with
  | Target.named b => _getTweeningValue self returnState b now
  | Target.located a b => _getTweeningValue self a b now

/-! ## Host primitives -/

/-- Line 51: `instance._pendingState || instance.state`. -/
def Host.readState (h : Host) : State :=
  match h._pendingState with
  | some p => p
  | none => h.state

/-- An update made in place on the state object that line 51 read. -/
def Host.putState (h : Host) (s : State) : Host :=
  match h._pendingState with
  | some _ => { h with _pendingState := some s }
  | none => { h with state := s }

/-- Modelled from the spec: the host's state-commit primitive `setState`,
"accepting a partial update merged into state", committed synchronously.  The
update is always `{ tweenQueue: q }`; `qid` is the identity of the array `q`. -/
def Host.setState (h : Host) (q : List Item) (qid : Nat) : Host :=
  h.putState { h.readState with tweenQueue := q, queueId := qid }

/-- The scheduler primitive `requestAnimationFrame(this._rafCb)`: one more
frame callback is armed. -/
def Host.requestAnimationFrame (h : Host) : Host :=
  { h with rafPending := h.rafPending + 1 }

/-- Lines 161-163. -/
def startRaf (self : Host) : Host :=
  self.requestAnimationFrame

/-! ## Registration -/

/-- What a call leaves behind: the host after the call, and the exception it
raised, if any. -/
structure Outcome where
  host : Host
  error : Option JSError

/-- Lines 55-63, given the value computed for `beginValue` on line 59. -/
def normalize (config : Config) (beginValue : Val) : NewConfig :=
  { easing := config.easing.getD DEFAULT_EASING
    duration := config.duration.getD DEFAULT_DURATION
    delay := config.delay.getD DEFAULT_DELAY
    beginValue := beginValue
    endValue := config.endValue
    onEnd := config.onEnd
    stackBehavior := config.stackBehavior.getD DEFAULT_STACK_BEHAVIOR }

/-- Lines 72-77: the request pushed on the queue. -/
def mkItem (stateRefFunc : Locator) (stateName : String) (newConfig : NewConfig) (now : ℚ) :
    Item :=
  { stateRefFunc := stateRefFunc
    stateName := stateName
    config := newConfig
    initTime := now + newConfig.delay }

/-- Lines 48-88, with `Date.now()` passed as `now`.  The steps are taken in
the order of the source, so that an exception leaves behind exactly the
mutations made before it: `push` on line 72 acts in place on
`state.tweenQueue` unless line 67 built a new array. -/
def _tweenState (stateRefFunc : Locator) (stateName : String) (config : Config) (now : ℚ)
    (inst : Host) : Outcome :=
  let state := inst.readState
  let stateRef := stateRefFunc state.store
  -- line 59: `stateRef[stateName]` is evaluated only when `config.beginValue == null`
  match (if config.beginValue = Val.undef then getProp state.store stateRef stateName
         else Except.ok config.beginValue) with
  | Except.error e => { host := inst, error := some e }
  | Except.ok beginValue =>
    let newConfig := normalize config beginValue
    let destructive : Bool := newConfig.stackBehavior == StackBehavior.DESTRUCTIVE
    -- lines 65-70
    let kept : List Item :=
      if destructive then state.tweenQueue.filter (otherTarget state.store stateRef stateName)
      else state.tweenQueue
    let keptId : Nat := if destructive then state.queueId + 1 else state.queueId
    -- lines 72-77
    let newTweenQueue : List Item := kept ++ [mkItem stateRefFunc stateName newConfig now]
    let pushed : State := if destructive then state else { state with tweenQueue := newTweenQueue }
    -- line 81
    match stateRef with
    | none => { host := inst.putState pushed, error := some JSError.typeError }
    | some ref =>
      let written : State :=
        { pushed with store := Store.set pushed.store ref stateName newConfig.endValue }
      -- line 83
      let committed : Host := (inst.putState written).setState newTweenQueue keptId
      -- lines 85-87
      { host := if newTweenQueue.length = 1 then startRaf committed else committed
        error := none }

/-- The arguments of the public `tweenState`, lines 31-46: `(name, config)` or
`(locator, name, config)`. -/
inductive TweenArgs where
  | named (stateName : String) (config : Config)
  | located (stateRefFunc : Locator) (stateName : String) (config : Config)

/-- Lines 31-46. -/
def tweenState (args : TweenArgs) (now : ℚ) (inst : Host) : Outcome :=
  match args with
  | TweenArgs.named b c => _tweenState returnState b c now inst
  | TweenArgs.located a b c => _tweenState a b c now inst

/-! ## Frame tick -/

/-- What running an `onEnd` callback does: the host it leaves, and whether it
threw. -/
structure CbResult where
  host : Host
  threw : Bool

/-- The callback table: the meaning of each `onEnd` function. -/
abbrev Callbacks := Nat → Host → CbResult

/-- Result of the loop of lines 140-147. -/
inductive LoopResult where
  | done (newTweenQueue : List Item) (host : Host) (invoked : List Nat)
  | threw (host : Host) (invoked : List Nat) (cb : Nat)
  | outOfFuel (host : Host) (invoked : List Nat)

/-- Lines 140-147.  `arr` is the current content of the array the tick
iterates over (the one held by the state object captured on line 132, of
identity `qid`), `i` the loop index, `newTweenQueue` the array being built.
A callback that pushes onto that very array makes it longer under the loop;
a callback that installs another array does not.  `fuel` bounds the number of
iterations. -/
def rafLoop (cbs : Callbacks) (now : ℚ) (qid : Nat) :
    Nat → Nat → List Item → List Item → Host → List Nat → LoopResult
  | 0, _, _, _, h, invoked => LoopResult.outOfFuel h invoked
  | fuel + 1, i, arr, newTweenQueue, h, invoked =>
    match arr.get? i with
    | none => LoopResult.done newTweenQueue h invoked
    | some item =>
      if now - item.initTime < item.config.duration then
        rafLoop cbs now qid fuel (i + 1) arr (newTweenQueue ++ [item]) h invoked
      else
        match item.config.onEnd with
        | none => rafLoop cbs now qid fuel (i + 1) arr newTweenQueue h invoked
        | some cb =>
          let r := cbs cb h
          if r.threw then LoopResult.threw r.host (invoked ++ [cb]) cb
          else
            let arr1 := if r.host.state.queueId = qid then r.host.state.tweenQueue else arr
            rafLoop cbs now qid fuel (i + 1) arr1 newTweenQueue r.host (invoked ++ [cb])

/-- What a tick leaves behind: the host, the `onEnd` callbacks it invoked, in
order, and the exception that escaped, if any. -/
structure TickResult where
  host : Host
  invoked : List Nat
  error : Option JSError

/-- Lines 131-159, with `Date.now()` passed as `now`. -/
def _rafCb (cbs : Callbacks) (now : ℚ) (fuel : Nat) (self : Host) : TickResult :=
  let state := self.state
  if state.tweenQueue.length = 0 then { host := self, invoked := [], error := none }
  else
    match rafLoop cbs now state.queueId fuel 0 state.tweenQueue [] self [] with
    | LoopResult.threw h invoked cb =>
      { host := h, invoked := invoked, error := some (JSError.thrown cb) }
    | LoopResult.outOfFuel h invoked =>
      { host := h, invoked := invoked, error := some JSError.outOfFuel }
    | LoopResult.done newTweenQueue h invoked =>
      if !h.mounted then { host := h, invoked := invoked, error := none }
      else
        { host := (h.setState newTweenQueue (h.readState.queueId + 1)).requestAnimationFrame
          invoked := invoked
          error := none }

/-! ## Definitions that follow the words of the specification -/

/-- Spec side: `clamp(x, lo, hi)`. -/
def clamp (x lo hi : ℚ) : ℚ := min (max x lo) hi

/-- Spec side: an item addresses the target `(ref, stateName)` in `store`. -/
def addresses (store : Store) (ref : Ref) (stateName : String) (item : Item) : Bool :=
  item.stateName == stateName && item.stateRefFunc store == some ref

/-- Spec side (section 4.4): `eased - endValue` with
`elapsed = clamp(now - initTime, 0, duration)`. -/
def specContribution (now : ℚ) (item : Item) : Val :=
  Val.sub
    (item.config.easing (clamp (now - item.initTime) 0 item.config.duration)
      item.config.beginValue item.config.endValue item.config.duration)
    item.config.endValue

/-- Spec side (section 4.4): the resting value plus the contributions of the
requests on the target, added in queue order. -/
def specSample (state : State) (ref : Ref) (stateName : String) (now : ℚ) : Val :=
  ((state.tweenQueue.filter (addresses state.store ref stateName)).map
    (specContribution now)).foldl Val.add (state.store ref stateName)

/-- Spec side (section 4.5): a request is still active at a tick when
`now - initTime < duration`; otherwise it is expired. -/
def stillActive (now : ℚ) (item : Item) : Bool :=
  decide (now - item.initTime < item.config.duration)

/-- Spec side: the `onEnd` callbacks of the expired requests of `q`, in queue order. -/
def expiredCallbacks (now : ℚ) (q : List Item) : List Nat :=
  (q.filter (fun item => !stillActive now item)).filterMap (fun item => item.config.onEnd)

/-- The host left by running the listed callbacks one after the other. -/
def runCallbacks (cbs : Callbacks) (ids : List Nat) (h : Host) : Host :=
  ids.foldl (fun h cb => (cbs cb h).host) h

/-- Line 59 on a resolved container: the begin value of the new request. -/
def beginValueOf (config : Config) (store : Store) (ref : Ref) (stateName : String) : Val :=
  if config.beginValue = Val.undef then store ref stateName else config.beginValue

/-- Lines 65-70 on a resolved container: the requests that survive the
stacking policy. -/
def keptQueue (config : Config) (state : State) (ref : Ref) (stateName : String) : List Item :=
  if config.stackBehavior = some StackBehavior.DESTRUCTIVE then
    state.tweenQueue.filter (otherTarget state.store (some ref) stateName)
  else state.tweenQueue

/-- Lines 55-77 on a resolved container: the request a registration builds. -/
def builtItem (stateRefFunc : Locator) (stateName : String) (config : Config) (now : ℚ)
    (state : State) (ref : Ref) : Item :=
  mkItem stateRefFunc stateName (normalize config (beginValueOf config state.store ref stateName))
    now

/-- Spec side (section 9): direct interpolation `v0 + (e - v0) * s / d`. -/
def directInterpolation (v0 e : Val) (s d : ℚ) : Val :=
  Val.add v0 (Val.div (Val.mul (Val.sub e v0) (Val.num s)) (Val.num d))

/-! ## Concrete scenarios -/

/-- A request on the top-level field `x`: from 0 to 100 in 100 time units,
linear, registered at time 0. -/
def itemX : Item :=
  { stateRefFunc := returnState
    stateName := "x"
    config :=
      { easing := linear
        duration := 100
        delay := 0
        beginValue := Val.num 0
        endValue := Val.num 100
        onEnd := none
        stackBehavior := StackBehavior.ADDITIVE }
    initTime := 0 }

/-- A mounted host whose field `x` rests at 100 and whose queue holds `itemX`. -/
def hostX : Host :=
  { state := { store := fun _ _ => Val.num 100, tweenQueue := [itemX], queueId := 0 }
    _pendingState := none
    mounted := true
    rafPending := 0 }

/-- The request `itemX` with a completion callback, the callback `0`. -/
def itemOnEnd : Item :=
  { itemX with config := { itemX.config with onEnd := some 0 } }

/-- A mounted host whose queue holds `itemOnEnd` alone. -/
def hostOnEnd : Host :=
  { hostX with state := { hostX.state with tweenQueue := [itemOnEnd] } }

/-- The configuration `{ endValue: 0 }`, every other option left out. -/
def configBack : Config :=
  { easing := none
    duration := none
    delay := none
    beginValue := Val.undef
    endValue := Val.num 0
    onEnd := none
    stackBehavior := none }

/-- A callback table whose every `onEnd` chains the next animation:
`() => tweenState('x', { endValue: 0 })`, run at time 100. -/
def chainCallbacks : Callbacks := fun _ h =>
  let o := tweenState (TweenArgs.named "x" configBack) 100 h
  { host := o.host, threw := o.error.isSome }

/-- A callback table whose callbacks do nothing. -/
def idleCallbacks : Callbacks := fun _ h => { host := h, threw := false }

/-- The host `hostX` while its frame loop is running: one frame callback is
armed. -/
def hostArmed : Host :=
  { hostX with rafPending := 1 }

/-- The configuration `{ endValue: 0, stackBehavior: 'DESTRUCTIVE' }`. -/
def configDestructive : Config :=
  { configBack with stackBehavior := some StackBehavior.DESTRUCTIVE }

/-- The configuration `{}`: no `endValue`, nothing else either. -/
def configNoEnd : Config :=
  { configBack with endValue := Val.undef }

/-- A mounted host with the given containers, an empty queue, no pending state
and no frame callback armed. -/
def idleHost (store : Store) : Host :=
  { state := { store := store, tweenQueue := [], queueId := 0 }
    _pendingState := none
    mounted := true
    rafPending := 0 }

/-- The configuration `{ easing: linear, beginValue: 0, endValue: 10,
duration: 100, delay: 0, stackBehavior: 'ADDITIVE' }`. -/
def configY : Config :=
  { easing := some linear
    duration := some 100
    delay := some 0
    beginValue := Val.num 0
    endValue := Val.num 10
    onEnd := none
    stackBehavior := some StackBehavior.ADDITIVE }

/-- The host after two registrations of `configY` on the top-level field `y`,
both at time 0, starting from an idle host whose `y` rests at 0. -/
def hostTwiceY (store : Store) : Host :=
  (tweenState (TweenArgs.named "y" configY) 0
    (tweenState (TweenArgs.named "y" configY) 0
      (idleHost (Store.set store 0 "y" (Val.num 0)))).host).host

/-- The configuration `{ endValue: 100, duration: 100, easing: linear }`. -/
def configLinear : Config :=
  { easing := some linear
    duration := some 100
    delay := none
    beginValue := Val.undef
    endValue := Val.num 100
    onEnd := none
    stackBehavior := none }

/-- A callback table whose callbacks unmount the host: a parent callback
removes the component. -/
def unmountCallbacks : Callbacks := fun _ h =>
  { host := { h with mounted := false }, threw := false }

/-- A callback table whose callback `0` throws and whose other callbacks do
nothing. -/
def throwingCallbacks : Callbacks := fun cb h =>
  { host := h, threw := decide (cb = 0) }

/-- The request `itemX` with the completion callback `1`. -/
def itemOnEnd1 : Item :=
  { itemX with config := { itemX.config with onEnd := some 1 } }

/-- A mounted host whose queue holds two requests on `x`, with the completion
callbacks `0` and `1`, one frame callback being run. -/
def hostTwoOnEnd : Host :=
  { hostX with state := { hostX.state with tweenQueue := [itemOnEnd, itemOnEnd1] } }

/-- A host that is no longer mounted: `x` rests at 0, the queue is empty and
no frame callback is armed. -/
def deadHost : Host :=
  { idleHost (fun _ _ => Val.num 0) with mounted := false }

/-! ## The frame driver as a transition system -/

/-- The scheduler runs one armed frame callback: it is armed no longer, and
`_rafCb` runs at time `now`. -/
def runFrame (cbs : Callbacks) (now : ℚ) (fuel : Nat) (h : Host) : Host :=
  (_rafCb cbs now fuel { h with rafPending := h.rafPending - 1 }).host

/-- The hosts reachable from an idle host with an empty queue by registrations
and frame ticks, in any interleaving; a frame tick needs an armed callback. -/
inductive Reachable (cbs : Callbacks) : Host → Prop where
  | idle (store : Store) : Reachable cbs (idleHost store)
  | register (h : Host) (args : TweenArgs) (now : ℚ) :
      Reachable cbs h → Reachable cbs (tweenState args now h).host
  | frame (h : Host) (now : ℚ) (fuel : Nat) :
      Reachable cbs h → 0 < h.rafPending → Reachable cbs (runFrame cbs now fuel h)

/-- Step 1 of the trace: `x` rests at 0 and `{ endValue: 100, duration: 100,
easing: linear }` is registered at time 0. -/
def traceRegistered : Host :=
  (tweenState (TweenArgs.named "x" configLinear) 0 (idleHost (fun _ _ => Val.num 0))).host

/-- Step 2 of the trace: the frame at time 100 retires the request. -/
def traceEmptied : Host :=
  runFrame idleCallbacks 100 2 traceRegistered

/-- Step 3 of the trace: `{ endValue: 0 }` is registered at time 100, before
the next frame. -/
def traceRegisteredAgain : Host :=
  (tweenState (TweenArgs.named "x" configBack) 100 traceEmptied).host

/-! ## More scenarios -/

/-- A callback table whose every `onEnd` replaces the animation of `x`:
`() => tweenState('x', { endValue: 0, stackBehavior: 'DESTRUCTIVE' })`, run at
time 100. -/
def replaceCallbacks : Callbacks := fun _ h =>
  let o := tweenState (TweenArgs.named "x" configDestructive) 100 h
  { host := o.host, threw := o.error.isSome }

/-- A request on `x` of duration 0, from `b` to `e`, linear, registered at
time 0. -/
def itemZero (b e : ℚ) : Item :=
  { stateRefFunc := returnState
    stateName := "x"
    config :=
      { easing := linear
        duration := 0
        delay := 0
        beginValue := Val.num b
        endValue := Val.num e
        onEnd := none
        stackBehavior := StackBehavior.ADDITIVE }
    initTime := 0 }

/-- A host whose field `x` rests at `e` and whose queue holds `itemZero b e`
alone. -/
def hostZero (b e : ℚ) : Host :=
  { state := { store := fun _ _ => Val.num e, tweenQueue := [itemZero b e], queueId := 0 }
    _pendingState := none
    mounted := true
    rafPending := 1 }

/-- A locator that yields `null`. -/
def nullLocator : Locator := fun _ => none

/-- The configuration `{ beginValue: 5, endValue: 0 }`. -/
def configBegin : Config :=
  { configBack with beginValue := Val.num 5 }

/-- The configuration `{ endValue: 0, duration: 0 }`. -/
def configInstant : Config :=
  { configBack with duration := some 0 }

/-- A caller-supplied easing that jumps at the end:
`(t, b, c, d) => t < d ? b : c`. -/
def stepEasing : Easing := fun t b c d => if t < d then b else c

/-- A request on `x` from 0 to `Infinity` in 100 time units, with the easing
`stepEasing`, registered at time 0. -/
def itemInf : Item :=
  { stateRefFunc := returnState
    stateName := "x"
    config :=
      { easing := stepEasing
        duration := 100
        delay := 0
        beginValue := Val.num 0
        endValue := Val.inf false
        onEnd := none
        stackBehavior := StackBehavior.ADDITIVE }
    initTime := 0 }

/-- A host whose field `x` rests at `Infinity` and whose queue holds `itemInf`
alone. -/
def hostInf : Host :=
  { state := { store := fun _ _ => Val.inf false, tweenQueue := [itemInf], queueId := 0 }
    _pendingState := none
    mounted := true
    rafPending := 1 }

/-- The configuration `{ endValue: Infinity, duration: 100, easing: linear }`. -/
def configInf : Config :=
  { configLinear with endValue := Val.inf false }

/-- The host `hostX` with every field `undefined`. -/
def hostUndefined : Host :=
  { hostX with state := { hostX.state with store := fun _ _ => Val.undef } }

/-- The request `itemX` with the end value `Infinity`. -/
def itemInfLinear : Item :=
  { itemX with config := { itemX.config with endValue := Val.inf false } }

/-- A host whose field `x` rests at `Infinity` and whose queue holds
`itemInfLinear` alone. -/
def hostInfLinear : Host :=
  { hostX with
    state := { store := fun _ _ => Val.inf false, tweenQueue := [itemInfLinear], queueId := 0 } }

/-! ## Properties -/

theorem Val.neg_add_eq_sub (e x : Val) : Val.add (Val.neg e) x = Val.sub x e := by
  cases e <;> cases x <;> simp [Val.add, Val.neg, Val.sub]
  · rename_i s t
    cases s <;> cases t <;> simp
  · ring

theorem progressTime_eq_clamp (now : ℚ) (item : Item) (hd : 0 ≤ item.config.duration) :
    progressTime now item = clamp (now - item.initTime) 0 item.config.duration := by
  unfold progressTime clamp
  split_ifs with h
  · rw [min_eq_right]
    exact le_trans (le_of_lt h) (le_max_left _ _)
  · rw [min_eq_left (max_le (le_of_not_lt h) hd), max_comm]

theorem contrib_eq_specContribution (now : ℚ) (item : Item) (hd : 0 ≤ item.config.duration) :
    contrib now item = specContribution now item := by
  unfold contrib specContribution
  rw [Val.neg_add_eq_sub, progressTime_eq_clamp now item hd]

theorem otherTarget_eq_not_addresses (store : Store) (ref : Ref) (stateName : String)
    (item : Item) :
    otherTarget store (some ref) stateName item = !addresses store ref stateName item := by
  unfold otherTarget addresses
  cases h1 : (item.stateName == stateName) <;> cases h2 : (item.stateRefFunc store == some ref) <;>
    simp_all [bne]

theorem sample_fold (store : Store) (ref : Ref) (stateName : String) (now : ℚ) :
    ∀ (q : List Item) (base : Val),
      q.foldl (fun tweeningValue item =>
          if otherTarget store (some ref) stateName item then tweeningValue
          else Val.add tweeningValue (contrib now item)) base
        = ((q.filter (addresses store ref stateName)).map (contrib now)).foldl Val.add base := by
  intro q
  induction q with
  | nil => intro base; rfl
  | cons item rest ih =>
    intro base
    rw [List.foldl_cons, otherTarget_eq_not_addresses]
    cases ha : addresses store ref stateName item
    · simp [List.filter_cons, ha, ih base]
    · simp [List.filter_cons, ha, ih]

/-- The sampler on a resolved target, as a fold over the requests on it. -/
theorem sampler_eq_fold (self : Host) (stateRefFunc : Locator) (stateName : String) (now : ℚ)
    (ref : Ref) (hres : stateRefFunc self.state.store = some ref) :
    _getTweeningValue self stateRefFunc stateName now
      = Except.ok (((self.state.tweenQueue.filter
            (addresses self.state.store ref stateName)).map (contrib now)).foldl Val.add
          (self.state.store ref stateName)) := by
  unfold _getTweeningValue
  simp only [hres, getProp]
  rw [sample_fold]

/-- C1. On a resolved target `(ref, stateName)`, when every queued request has
a duration `>= 0`, the sampler returns the resting value of the field plus, in
queue order, `easing(clamp(now - initTime, 0, duration), begin, end, duration)
- endValue` for exactly the queued requests whose field name is `stateName`
and whose locator yields `ref` in the current state; the other requests
contribute nothing. -/
theorem sampler_eq_resting_plus_contributions (self : Host) (stateRefFunc : Locator)
    (stateName : String) (now : ℚ) (ref : Ref)
    (hres : stateRefFunc self.state.store = some ref)
    (hdur : ∀ item ∈ self.state.tweenQueue, 0 ≤ item.config.duration) :
    _getTweeningValue self stateRefFunc stateName now
      = Except.ok (specSample self.state ref stateName now) := by
  rw [sampler_eq_fold self stateRefFunc stateName now ref hres]
  unfold specSample
  congr 2
  apply List.map_congr_left
  intro item hitem
  exact contrib_eq_specContribution now item (hdur item (List.mem_of_mem_filter hitem))

/-- Witness of C1 on `hostX`. -/
theorem sampler_eq_resting_plus_contributions_witness :
    returnState hostX.state.store = some 0
      ∧ (∀ item ∈ hostX.state.tweenQueue, 0 ≤ item.config.duration)
      ∧ _getTweeningValue hostX returnState "x" 50
          = Except.ok (specSample hostX.state 0 "x" 50) :=
  ⟨rfl, by simp [hostX, itemX],
    sampler_eq_resting_plus_contributions hostX returnState "x" 50 0 rfl
      (by simp [hostX, itemX])⟩

/-- C2 (amended). For a resolved target whose only queued request `r` has a
duration `>= 0` and whose field rests at `r.endValue`, and for an easing with
`easing(0,b,e,d) = b` and `easing(d,b,e,d) = e` at the values of `r`: at every
`now <= r.initTime` (the whole delay window) the sampler returns
`endValue + (-endValue + beginValue)`, the operations being those of the
program, in its order; at every `now >= r.initTime + r.duration` it returns
`endValue + (-endValue + endValue)`, which is exactly `r.endValue` when the
end value is a finite number. -/
theorem sampler_at_ends (self : Host) (stateRefFunc : Locator) (stateName : String)
    (ref : Ref) (r : Item) (now : ℚ)
    (hres : stateRefFunc self.state.store = some ref)
    (honly : self.state.tweenQueue.filter (addresses self.state.store ref stateName) = [r])
    (hd : 0 ≤ r.config.duration)
    (hrest : self.state.store ref stateName = r.config.endValue)
    (h0 : r.config.easing 0 r.config.beginValue r.config.endValue r.config.duration
            = r.config.beginValue)
    (h1 : r.config.easing r.config.duration r.config.beginValue r.config.endValue
            r.config.duration = r.config.endValue) :
    (now ≤ r.initTime →
        _getTweeningValue self stateRefFunc stateName now
          = Except.ok (Val.add r.config.endValue
              (Val.add (Val.neg r.config.endValue) r.config.beginValue)))
      ∧ (r.initTime + r.config.duration ≤ now →
        _getTweeningValue self stateRefFunc stateName now
          = Except.ok (Val.add r.config.endValue
              (Val.add (Val.neg r.config.endValue) r.config.endValue)))
      ∧ (∀ e : ℚ, r.config.endValue = Val.num e → r.initTime + r.config.duration ≤ now →
        _getTweeningValue self stateRefFunc stateName now = Except.ok r.config.endValue) := by
  rw [sampler_eq_fold self stateRefFunc stateName now ref hres, honly, hrest]
  simp only [List.map_cons, List.map_nil, List.foldl_cons, List.foldl_nil, contrib]
  have hlate : r.initTime + r.config.duration ≤ now →
      progressTime now r = r.config.duration := by
    intro hnow
    unfold progressTime
    split_ifs with h
    · rfl
    · have : now - r.initTime = r.config.duration := le_antisymm (le_of_not_lt h) (by linarith)
      rw [this, max_eq_right hd]
  refine ⟨?_, ?_, ?_⟩
  · intro hnow
    have hp : progressTime now r = 0 := by
      unfold progressTime
      rw [if_neg (by linarith), max_eq_left (by linarith)]
    rw [hp, h0]
  · intro hnow
    rw [hlate hnow, h1]
  · intro e he hnow
    rw [hlate hnow, h1, he]
    simp [Val.add, Val.neg]

/-- Witness of C2 (amended) on `hostX`, sampled at time 0 and at time 100. -/
theorem sampler_at_ends_witness :
    hostX.state.tweenQueue.filter (addresses hostX.state.store 0 "x") = [itemX]
      ∧ (0 : ℚ) ≤ itemX.initTime
      ∧ _getTweeningValue hostX returnState "x" 0
          = Except.ok (Val.add itemX.config.endValue
              (Val.add (Val.neg itemX.config.endValue) itemX.config.beginValue))
      ∧ itemX.initTime + itemX.config.duration ≤ 100
      ∧ _getTweeningValue hostX returnState "x" 100 = Except.ok itemX.config.endValue :=
  have hfilter : hostX.state.tweenQueue.filter (addresses hostX.state.store 0 "x") = [itemX] := by
    simp [hostX, itemX, addresses, returnState]
  have h0 : itemX.config.easing 0 itemX.config.beginValue itemX.config.endValue
      itemX.config.duration = itemX.config.beginValue := by
    simp [itemX, linear, Val.sub, Val.mul, Val.div, Val.add]
  have h1 : itemX.config.easing itemX.config.duration itemX.config.beginValue
      itemX.config.endValue itemX.config.duration = itemX.config.endValue := by
    simp [itemX, linear, Val.sub, Val.mul, Val.div, Val.add]
  ⟨hfilter, by simp [itemX],
    (sampler_at_ends hostX returnState "x" 0 itemX 0 rfl hfilter (by simp [itemX]) rfl h0
      h1).1 (by simp [itemX]),
    by norm_num [itemX],
    (sampler_at_ends hostX returnState "x" 0 itemX 100 rfl hfilter (by simp [itemX]) rfl h0
      h1).2.2 100 rfl (by norm_num [itemX])⟩

/-- C2, counterexample. The field `x` rests at `Infinity`, the end value of
its only queued request, which starts from 0 with a duration of 100 and an
easing that returns the begin value at `t = 0` and the end value at `t = d`.
At time 0, which is not after the start, the sampler computes
`Infinity + (-Infinity + 0)` and returns `NaN`, not the begin value 0. -/
theorem sampler_at_ends_counterexample :
    hostInf.state.tweenQueue.filter (addresses hostInf.state.store 0 "x") = [itemInf]
      ∧ (0 : ℚ) ≤ itemInf.config.duration
      ∧ hostInf.state.store 0 "x" = itemInf.config.endValue
      ∧ itemInf.config.easing 0 itemInf.config.beginValue itemInf.config.endValue
          itemInf.config.duration = itemInf.config.beginValue
      ∧ itemInf.config.easing itemInf.config.duration itemInf.config.beginValue
          itemInf.config.endValue itemInf.config.duration = itemInf.config.endValue
      ∧ (0 : ℚ) ≤ itemInf.initTime
      ∧ _getTweeningValue hostInf returnState "x" 0 = Except.ok Val.nan
      ∧ itemInf.config.beginValue = Val.num 0 := by
  refine ⟨?_, ?_, rfl, ?_, ?_, ?_, ?_, rfl⟩
  · simp [hostInf, itemInf, addresses, returnState]
  · simp [itemInf]
  · simp [itemInf, stepEasing]
  · simp [itemInf, stepEasing]
  · simp [itemInf]
  · simp [_getTweeningValue, hostInf, itemInf, returnState, getProp, otherTarget, contrib,
      progressTime, stepEasing, Val.add, Val.neg]
    norm_num

theorem rafLoop_quiet (cbs : Callbacks) (now : ℚ) (qid : Nat) (arr : List Item)
    (hthrow : ∀ cb h, (cbs cb h).threw = false)
    (hqueue : ∀ cb h, (cbs cb h).host.state.tweenQueue = h.state.tweenQueue) :
    ∀ (fuel i : Nat) (acc : List Item) (h : Host) (invoked : List Nat),
      h.state.tweenQueue = arr → arr.length - i < fuel →
      rafLoop cbs now qid fuel i arr acc h invoked
        = LoopResult.done (acc ++ (arr.drop i).filter (stillActive now))
            (runCallbacks cbs (expiredCallbacks now (arr.drop i)) h)
            (invoked ++ expiredCallbacks now (arr.drop i)) := by
  intro fuel
  induction fuel with
  | zero =>
    intro i acc h invoked _ hlen
    omega
  | succ fuel ih =>
    intro i acc h invoked harr hlen
    unfold rafLoop
    cases hget : arr.get? i with
    | none =>
      have hdrop : arr.drop i = [] := List.drop_eq_nil_of_le (List.get?_eq_none.mp hget)
      simp [hdrop, expiredCallbacks, runCallbacks]
    | some item =>
      obtain ⟨hi, hitem⟩ := List.get?_eq_some.mp hget
      have hdrop : arr.drop i = item :: arr.drop (i + 1) := by
        rw [List.drop_eq_getElem_cons hi]
        simp at hitem
        rw [hitem]
      simp only []
      by_cases hact : now - item.initTime < item.config.duration
      · have hs : stillActive now item = true := by simp [stillActive, hact]
        rw [if_pos hact, ih (i + 1) _ h invoked harr (by omega), hdrop]
        simp [List.filter_cons, hs, expiredCallbacks]
      · have hs : stillActive now item = false := by simp [stillActive, hact]
        rw [if_neg hact]
        cases hcb : item.config.onEnd with
        | none =>
          simp only []
          rw [ih (i + 1) _ h invoked harr (by omega), hdrop]
          simp [List.filter_cons, hs, expiredCallbacks, hcb]
        | some cb =>
          simp only [hthrow cb h]
          have harr1 : (if (cbs cb h).host.state.queueId = qid
              then (cbs cb h).host.state.tweenQueue else arr) = arr := by
            split_ifs
            · rw [hqueue, harr]
            · rfl
          simp only [harr1]
          rw [ih (i + 1) _ _ _ (by rw [hqueue, harr]) (by omega), hdrop]
          simp [List.filter_cons, hs, expiredCallbacks, hcb, runCallbacks]

theorem runCallbacks_mounted (cbs : Callbacks)
    (hmount : ∀ cb h, (cbs cb h).host.mounted = h.mounted) :
    ∀ (ids : List Nat) (h : Host), (runCallbacks cbs ids h).mounted = h.mounted := by
  intro ids
  induction ids with
  | nil => intro h; rfl
  | cons cb rest ih =>
    intro h
    simp only [runCallbacks, List.foldl_cons] at ih ⊢
    rw [ih, hmount]

theorem readState_putState (h : Host) (s : State) : (h.putState s).readState = s := by
  unfold Host.putState Host.readState
  cases h._pendingState <;> rfl

theorem readState_requestAnimationFrame (h : Host) :
    h.requestAnimationFrame.readState = h.readState := rfl

theorem readState_setState (h : Host) (q : List Item) (qid : Nat) :
    (h.setState q qid).readState = { h.readState with tweenQueue := q, queueId := qid } := by
  unfold Host.setState
  rw [readState_putState]

theorem filterMap_onEnd_length (q : List Item) (hall : ∀ item ∈ q, item.config.onEnd ≠ none) :
    (q.filterMap (fun item => item.config.onEnd)).length = q.length := by
  induction q with
  | nil => rfl
  | cons item rest ih =>
    have hrest : ∀ it ∈ rest, it.config.onEnd ≠ none := fun it hit =>
      hall it (List.mem_cons_of_mem _ hit)
    have hitem := hall item (List.mem_cons_self _ _)
    cases hcb : item.config.onEnd with
    | none => exact absurd hcb hitem
    | some cb => simp [List.filterMap_cons, hcb, ih hrest]

/-- C3 (amended). For a tick at time `now` on a mounted host with a non-empty
queue `q`, given enough fuel for one pass over `q`, when no callback throws,
unmounts the host or changes the queue: the tick raises nothing, the committed
queue is exactly the requests of `q` with `now - initTime < duration`, in
their order, and the `onEnd` callbacks invoked are exactly those of the other
(expired) requests that have one, once each, in queue order.  In particular,
when every request of `q` is expired and has an `onEnd`, the committed queue
is empty and there are `q.length` invocations, in queue order. -/
theorem tick_partition (cbs : Callbacks) (now : ℚ) (fuel : Nat) (self : Host)
    (hlive : self.mounted = true)
    (hne : self.state.tweenQueue ≠ [])
    (hthrow : ∀ cb h, (cbs cb h).threw = false)
    (hmount : ∀ cb h, (cbs cb h).host.mounted = h.mounted)
    (hqueue : ∀ cb h, (cbs cb h).host.state.tweenQueue = h.state.tweenQueue)
    (hfuel : self.state.tweenQueue.length < fuel) :
    (_rafCb cbs now fuel self).error = none
      ∧ (_rafCb cbs now fuel self).host.readState.tweenQueue
          = self.state.tweenQueue.filter (stillActive now)
      ∧ (_rafCb cbs now fuel self).invoked = expiredCallbacks now self.state.tweenQueue
      ∧ ((∀ item ∈ self.state.tweenQueue,
            stillActive now item = false ∧ item.config.onEnd ≠ none) →
          (_rafCb cbs now fuel self).host.readState.tweenQueue = []
            ∧ (_rafCb cbs now fuel self).invoked.length = self.state.tweenQueue.length
            ∧ (_rafCb cbs now fuel self).invoked
                = self.state.tweenQueue.filterMap (fun item => item.config.onEnd)) := by
  have hlen : ¬ self.state.tweenQueue.length = 0 := by
    intro h0
    exact hne (List.length_eq_zero.mp h0)
  have hloop := rafLoop_quiet cbs now self.state.queueId self.state.tweenQueue hthrow hqueue
    fuel 0 [] self [] rfl (by omega)
  have hm : (runCallbacks cbs (expiredCallbacks now self.state.tweenQueue) self).mounted = true := by
    rw [runCallbacks_mounted cbs hmount, hlive]
  have hres : _rafCb cbs now fuel self =
      { host := ((runCallbacks cbs (expiredCallbacks now self.state.tweenQueue) self).setState
            (self.state.tweenQueue.filter (stillActive now))
            ((runCallbacks cbs (expiredCallbacks now self.state.tweenQueue) self).readState.queueId
              + 1)).requestAnimationFrame
        invoked := expiredCallbacks now self.state.tweenQueue
        error := none } := by
    unfold _rafCb
    simp only [if_neg hlen, hloop, List.drop_zero, List.nil_append, hm]
    rfl
  rw [hres]
  refine ⟨rfl, ?_, rfl, ?_⟩
  · simp only [readState_requestAnimationFrame, readState_setState]
  · intro hall
    have hfilter : self.state.tweenQueue.filter (stillActive now) = [] := by
      rw [List.filter_eq_nil_iff]
      intro item hitem
      simp [(hall item hitem).1]
    have hexp : self.state.tweenQueue.filter (fun item => !stillActive now item)
        = self.state.tweenQueue := by
      rw [List.filter_eq_self]
      intro item hitem
      simp [(hall item hitem).1]
    have hinv : expiredCallbacks now self.state.tweenQueue
        = self.state.tweenQueue.filterMap (fun item => item.config.onEnd) := by
      unfold expiredCallbacks
      rw [hexp]
    refine ⟨?_, ?_, hinv⟩
    · simp only [readState_requestAnimationFrame, readState_setState, hfilter]
    · simp only [hinv]
      exact filterMap_onEnd_length _ (fun item hitem => (hall item hitem).2)

/-- Witness of C3 (amended): `hostOnEnd` ticked at time 100 with callbacks
that do nothing. -/
theorem tick_partition_witness :
    hostOnEnd.mounted = true
      ∧ hostOnEnd.state.tweenQueue ≠ []
      ∧ hostOnEnd.state.tweenQueue.length < 2
      ∧ (_rafCb idleCallbacks 100 2 hostOnEnd).error = none
      ∧ (_rafCb idleCallbacks 100 2 hostOnEnd).host.readState.tweenQueue
          = hostOnEnd.state.tweenQueue.filter (stillActive 100)
      ∧ (_rafCb idleCallbacks 100 2 hostOnEnd).invoked
          = expiredCallbacks 100 hostOnEnd.state.tweenQueue :=
  have h := tick_partition idleCallbacks 100 2 hostOnEnd rfl (by simp [hostOnEnd])
    (fun _ _ => rfl) (fun _ _ => rfl) (fun _ _ => rfl) (by simp [hostOnEnd])
  ⟨rfl, by simp [hostOnEnd], by simp [hostOnEnd], h.1, h.2.1, h.2.2.1⟩

theorem chain_no_throw (cb : Nat) (h : Host) : (chainCallbacks cb h).threw = false := by
  simp [chainCallbacks, tweenState, _tweenState, configBack, returnState, getProp]

/-- C3, counterexample. The queue holds one expired request whose `onEnd`
registers the next animation (ADDITIVE, so pushed onto the very array the tick
iterates over).  The host is mounted and no callback throws, yet the queue the
tick commits holds the new request: it is not the sub-list of the requests of
the initial queue that are still active, which is empty. -/
theorem tick_partition_counterexample :
    hostOnEnd.mounted = true
      ∧ hostOnEnd.state.tweenQueue ≠ []
      ∧ (∀ cb h, (chainCallbacks cb h).threw = false)
      ∧ (_rafCb chainCallbacks 100 3 hostOnEnd).error = none
      ∧ (_rafCb chainCallbacks 100 3 hostOnEnd).host.readState.tweenQueue
          ≠ hostOnEnd.state.tweenQueue.filter (stillActive 100) := by
  refine ⟨rfl, by simp [hostOnEnd], chain_no_throw, ?_, ?_⟩
  · simp [_rafCb, rafLoop, hostOnEnd, hostX, itemOnEnd, itemX, chainCallbacks, tweenState,
      _tweenState, mkItem, configBack, returnState, getProp, normalize, Host.readState, Host.putState,
      Host.setState, startRaf, Host.requestAnimationFrame, DEFAULT_STACK_BEHAVIOR,
      DEFAULT_DURATION, DEFAULT_DELAY]
  · intro h
    have := congrArg List.length h
    simp [_rafCb, rafLoop, hostOnEnd, hostX, itemOnEnd, itemX, chainCallbacks, tweenState,
      _tweenState, mkItem, configBack, returnState, getProp, normalize, Host.readState, Host.putState,
      Host.setState, startRaf, Host.requestAnimationFrame, DEFAULT_STACK_BEHAVIOR,
      DEFAULT_DURATION, DEFAULT_DELAY, stillActive] at this
theorem normalize_stackBehavior_destructive (config : Config) (bv : Val) :
    ((normalize config bv).stackBehavior == StackBehavior.DESTRUCTIVE)
      = decide (config.stackBehavior = some StackBehavior.DESTRUCTIVE) := by
  unfold normalize DEFAULT_STACK_BEHAVIOR
  rcases hsb : config.stackBehavior with _ | sb
  · simp
  · cases sb <;> simp

theorem putState_rafPending (h : Host) (s : State) : (h.putState s).rafPending = h.rafPending := by
  unfold Host.putState
  cases h._pendingState <;> rfl

theorem putState_mounted (h : Host) (s : State) : (h.putState s).mounted = h.mounted := by
  unfold Host.putState
  cases h._pendingState <;> rfl

theorem putState_pending_none (h : Host) (s : State) :
    (h.putState s)._pendingState = none ↔ h._pendingState = none := by
  unfold Host.putState
  cases h._pendingState <;> simp

theorem putState_putState (h : Host) (s t : State) : (h.putState s).putState t = h.putState t := by
  unfold Host.putState
  cases h._pendingState <;> rfl

/-- The host a registration leaves when its locator resolves. -/
theorem tweenState_resolved_host (stateRefFunc : Locator) (stateName : String) (config : Config)
    (now : ℚ) (inst : Host) (ref : Ref)
    (hres : stateRefFunc inst.readState.store = some ref) :
    _tweenState stateRefFunc stateName config now inst
      = { host :=
            (if (keptQueue config inst.readState ref stateName
                  ++ [builtItem stateRefFunc stateName config now inst.readState ref]).length = 1
              then startRaf else id)
              (inst.putState
                { store := Store.set inst.readState.store ref stateName config.endValue
                  tweenQueue := keptQueue config inst.readState ref stateName
                    ++ [builtItem stateRefFunc stateName config now inst.readState ref]
                  queueId := if config.stackBehavior = some StackBehavior.DESTRUCTIVE
                    then inst.readState.queueId + 1 else inst.readState.queueId })
          error := none } := by
  have hbv : (if config.beginValue = Val.undef
        then getProp inst.readState.store (some ref) stateName
        else Except.ok config.beginValue)
      = Except.ok (beginValueOf config inst.readState.store ref stateName) := by
    unfold beginValueOf getProp
    split_ifs <;> rfl
  unfold _tweenState
  simp only [hres, hbv, normalize_stackBehavior_destructive]
  have hend : ∀ bv, (normalize config bv).endValue = config.endValue := fun _ => rfl
  by_cases hd : config.stackBehavior = some StackBehavior.DESTRUCTIVE
  · simp only [hd, keptQueue, builtItem, Host.setState, readState_putState, putState_putState,
      hend, decide_True, if_true]
    split_ifs <;> rfl
  · simp only [hd, keptQueue, builtItem, Host.setState, readState_putState, putState_putState,
      hend, decide_False, if_false, Bool.false_eq_true]
    split_ifs <;> rfl
theorem tweenState_resolved_error (stateRefFunc : Locator) (stateName : String) (config : Config)
    (now : ℚ) (inst : Host) (ref : Ref)
    (hres : stateRefFunc inst.readState.store = some ref) :
    (_tweenState stateRefFunc stateName config now inst).error = none := by
  rw [tweenState_resolved_host stateRefFunc stateName config now inst ref hres]

/-- The state a registration leaves when its locator resolves. -/
theorem tweenState_resolved_readState (stateRefFunc : Locator) (stateName : String)
    (config : Config) (now : ℚ) (inst : Host) (ref : Ref)
    (hres : stateRefFunc inst.readState.store = some ref) :
    (_tweenState stateRefFunc stateName config now inst).host.readState
      = { store := Store.set inst.readState.store ref stateName config.endValue
          tweenQueue := keptQueue config inst.readState ref stateName
            ++ [builtItem stateRefFunc stateName config now inst.readState ref]
          queueId := if config.stackBehavior = some StackBehavior.DESTRUCTIVE
            then inst.readState.queueId + 1 else inst.readState.queueId } := by
  rw [tweenState_resolved_host stateRefFunc stateName config now inst ref hres]
  simp only []
  split_ifs <;> exact readState_putState _ _

/-- The frame callbacks armed after a registration whose locator resolves:
one more exactly when no earlier request survives the stacking policy. -/
theorem tweenState_resolved_rafPending (stateRefFunc : Locator) (stateName : String)
    (config : Config) (now : ℚ) (inst : Host) (ref : Ref)
    (hres : stateRefFunc inst.readState.store = some ref) :
    (_tweenState stateRefFunc stateName config now inst).host.rafPending
      = if (keptQueue config inst.readState ref stateName).length = 0 then inst.rafPending + 1
        else inst.rafPending := by
  rw [tweenState_resolved_host stateRefFunc stateName config now inst ref hres]
  simp only [List.length_append, List.length_singleton, add_left_eq_self]
  split_ifs <;> simp [startRaf, Host.requestAnimationFrame, putState_rafPending]

theorem addresses_builtItem (stateRefFunc : Locator) (stateName : String) (config : Config)
    (now : ℚ) (state : State) (ref : Ref) (hres : stateRefFunc state.store = some ref) :
    addresses state.store ref stateName (builtItem stateRefFunc stateName config now state ref)
      = true := by
  simp [addresses, builtItem, mkItem, hres]

theorem otherTarget_eq_not_addresses_fun (store : Store) (ref : Ref) (stateName : String) :
    otherTarget store (some ref) stateName = fun item => !addresses store ref stateName item :=
  funext (otherTarget_eq_not_addresses store ref stateName)

/-- C4. For every queue and every DESTRUCTIVE registration whose locator
resolves, with target `T` = (the container resolved in the state at
registration, `stateName`): the registration succeeds; the committed queue is
the earlier requests that do not address `T`, in their order, followed by the
new request; the new request is the only request of the committed queue that
addresses `T`; and the requests on other targets are the same, in the same
order, before and after. -/
theorem destructive_registration (stateRefFunc : Locator) (stateName : String) (config : Config)
    (now : ℚ) (inst : Host) (ref : Ref)
    (hres : stateRefFunc inst.readState.store = some ref)
    (hdes : config.stackBehavior = some StackBehavior.DESTRUCTIVE) :
    (_tweenState stateRefFunc stateName config now inst).error = none
      ∧ (_tweenState stateRefFunc stateName config now inst).host.readState.tweenQueue
          = inst.readState.tweenQueue.filter
              (fun item => !addresses inst.readState.store ref stateName item)
            ++ [builtItem stateRefFunc stateName config now inst.readState ref]
      ∧ (_tweenState stateRefFunc stateName config now inst).host.readState.tweenQueue.filter
            (addresses inst.readState.store ref stateName)
          = [builtItem stateRefFunc stateName config now inst.readState ref]
      ∧ (_tweenState stateRefFunc stateName config now inst).host.readState.tweenQueue.filter
            (fun item => !addresses inst.readState.store ref stateName item)
          = inst.readState.tweenQueue.filter
              (fun item => !addresses inst.readState.store ref stateName item) := by
  have hb := addresses_builtItem stateRefFunc stateName config now inst.readState ref hres
  rw [tweenState_resolved_readState stateRefFunc stateName config now inst ref hres]
  simp only [keptQueue, hdes, if_true, otherTarget_eq_not_addresses_fun]
  refine ⟨tweenState_resolved_error stateRefFunc stateName config now inst ref hres, trivial, ?_, ?_⟩
  · simp [List.filter_append, List.filter_filter, hb]
  · simp [List.filter_append, List.filter_filter, hb]

/-- C5. For every queue `q` and every ADDITIVE registration (stacking mode
left out or `ADDITIVE`) whose locator resolves, the registration succeeds and
the committed queue is `q` followed by the new request: every earlier request,
those on the same target included, is kept unchanged and in order, and the
length grows by one.  The new request is spelled out: the locator and field
name of the call, the options of the call with the defaults 300, 0 and
`easeInOutQuad`, the begin value supplied or else the value the field held,
the stacking mode `ADDITIVE`, and `initTime = now + delay`. -/
theorem additive_registration (stateRefFunc : Locator) (stateName : String) (config : Config)
    (now : ℚ) (inst : Host) (ref : Ref)
    (hres : stateRefFunc inst.readState.store = some ref)
    (hadd : config.stackBehavior ≠ some StackBehavior.DESTRUCTIVE) :
    (_tweenState stateRefFunc stateName config now inst).error = none
      ∧ (_tweenState stateRefFunc stateName config now inst).host.readState.tweenQueue
          = inst.readState.tweenQueue
            ++ [{ stateRefFunc := stateRefFunc
                  stateName := stateName
                  config :=
                    { easing := (match config.easing with
                        | some f => f
                        | none => easeInOutQuad)
                      duration := (match config.duration with
                        | some d => d
                        | none => 300)
                      delay := (match config.delay with
                        | some d => d
                        | none => 0)
                      beginValue :=
                        if config.beginValue = Val.undef then inst.readState.store ref stateName
                        else config.beginValue
                      endValue := config.endValue
                      onEnd := config.onEnd
                      stackBehavior := StackBehavior.ADDITIVE }
                  initTime := now + (match config.delay with
                    | some d => d
                    | none => 0) }]
      ∧ (_tweenState stateRefFunc stateName config now inst).host.readState.tweenQueue.length
          = inst.readState.tweenQueue.length + 1 := by
  have hsb : config.stackBehavior.getD DEFAULT_STACK_BEHAVIOR = StackBehavior.ADDITIVE := by
    rcases hs : config.stackBehavior with _ | s
    · rfl
    · cases s
      · rfl
      · exact absurd hs hadd
  have he : config.easing.getD DEFAULT_EASING
      = (match config.easing with
          | some f => f
          | none => easeInOutQuad) := by
    cases config.easing <;> rfl
  have hdur : config.duration.getD DEFAULT_DURATION
      = (match config.duration with
          | some d => d
          | none => 300) := by
    cases config.duration <;> rfl
  have hdel : config.delay.getD DEFAULT_DELAY
      = (match config.delay with
          | some d => d
          | none => 0) := by
    cases config.delay <;> rfl
  rw [tweenState_resolved_readState stateRefFunc stateName config now inst ref hres]
  refine ⟨tweenState_resolved_error stateRefFunc stateName config now inst ref hres, ?_, ?_⟩
  · simp only [keptQueue, hadd, if_false, builtItem, mkItem, normalize, beginValueOf, hsb, he,
      hdur, hdel]
  · simp [keptQueue, hadd]

/-- C7. After a registration whose locator resolves (either stacking mode),
with end value `config.endValue` on `(ref, stateName)`: the registration
succeeds, the field read directly from the resolved container is
`config.endValue`, and every other field of every container is unchanged. -/
theorem registration_writes_endValue (stateRefFunc : Locator) (stateName : String)
    (config : Config) (now : ℚ) (inst : Host) (ref : Ref)
    (hres : stateRefFunc inst.readState.store = some ref) :
    (_tweenState stateRefFunc stateName config now inst).error = none
      ∧ (_tweenState stateRefFunc stateName config now inst).host.readState.store ref stateName
          = config.endValue
      ∧ ∀ (r : Ref) (n : String), ¬ (r = ref ∧ n = stateName) →
          (_tweenState stateRefFunc stateName config now inst).host.readState.store r n
            = inst.readState.store r n := by
  rw [tweenState_resolved_readState stateRefFunc stateName config now inst ref hres]
  refine ⟨tweenState_resolved_error stateRefFunc stateName config now inst ref hres, ?_, ?_⟩
  · simp [Store.set]
  · intro r n hrn
    simp [Store.set, hrn]

/-- Witness of C4: a DESTRUCTIVE registration on `x` over `hostX`. -/
theorem destructive_registration_witness :
    returnState hostX.readState.store = some 0
      ∧ configDestructive.stackBehavior = some StackBehavior.DESTRUCTIVE
      ∧ (_tweenState returnState "x" configDestructive 50 hostX).host.readState.tweenQueue.filter
            (addresses hostX.readState.store 0 "x")
          = [builtItem returnState "x" configDestructive 50 hostX.readState 0] :=
  ⟨rfl, rfl, (destructive_registration returnState "x" configDestructive 50 hostX 0 rfl rfl).2.2.1⟩

/-- Witness of C5: `{ endValue: 0 }` registered on `x` over `hostX` at time
50; the new request goes from the resting value 100 to 0 in 300 time units. -/
theorem additive_registration_witness :
    returnState hostX.readState.store = some 0
      ∧ configBack.stackBehavior ≠ some StackBehavior.DESTRUCTIVE
      ∧ (_tweenState returnState "x" configBack 50 hostX).host.readState.tweenQueue
          = [itemX,
              { stateRefFunc := returnState
                stateName := "x"
                config :=
                  { easing := easeInOutQuad
                    duration := 300
                    delay := 0
                    beginValue := Val.num 100
                    endValue := Val.num 0
                    onEnd := none
                    stackBehavior := StackBehavior.ADDITIVE }
                initTime := 50 + 0 }] :=
  ⟨rfl, by simp [configBack],
    (additive_registration returnState "x" configBack 50 hostX 0 rfl (by simp [configBack])).2.1⟩

/-- Witness of C7: a registration with end value 0 on `x` over `hostX`. -/
theorem registration_writes_endValue_witness :
    returnState hostX.readState.store = some 0
      ∧ (_tweenState returnState "x" configBack 50 hostX).host.readState.store 0 "x"
          = configBack.endValue :=
  ⟨rfl, (registration_writes_endValue returnState "x" configBack 50 hostX 0 rfl).2.1⟩

/-- C6, at the failing input. The queue of `hostArmed` holds one request on
`x` and one frame callback is armed; a DESTRUCTIVE registration on `x`
replaces that request, the new queue has length 1, and `startRaf` is invoked
although the queue was not empty: two frame callbacks are armed. -/
theorem destructive_replace_starts_raf_again :
    hostArmed.readState.tweenQueue.length = 1
      ∧ hostArmed.rafPending = 1
      ∧ (tweenState (TweenArgs.named "x" configDestructive) 50 hostArmed).error = none
      ∧ (tweenState (TweenArgs.named "x" configDestructive) 50 hostArmed).host.readState.tweenQueue.length
          = 1
      ∧ (tweenState (TweenArgs.named "x" configDestructive) 50 hostArmed).host.rafPending = 2 := by
  refine ⟨rfl, rfl, ?_, ?_, ?_⟩
  · exact tweenState_resolved_error returnState "x" configDestructive 50 hostArmed 0 rfl
  · show (_tweenState returnState "x" configDestructive 50 hostArmed).host.readState.tweenQueue.length
      = 1
    rw [tweenState_resolved_readState returnState "x" configDestructive 50 hostArmed 0 rfl]
    simp [keptQueue, configDestructive, hostArmed, hostX, itemX, Host.readState, otherTarget,
      returnState]
  · show (_tweenState returnState "x" configDestructive 50 hostArmed).host.rafPending = 2
    rw [tweenState_resolved_rafPending returnState "x" configDestructive 50 hostArmed 0 rfl]
    simp [keptQueue, configDestructive, hostArmed, hostX, itemX, Host.readState, otherTarget,
      returnState]

/-- C10 (amended). For every state and every config that supplies no
`endValue`, a registration whose locator resolves does not fail: it appends to
the queue a request whose `endValue` is `undefined` and overwrites the target
field with `undefined`. -/
theorem registration_without_endValue (stateRefFunc : Locator) (stateName : String)
    (config : Config) (now : ℚ) (inst : Host) (ref : Ref)
    (hres : stateRefFunc inst.readState.store = some ref)
    (hend : config.endValue = Val.undef) :
    (_tweenState stateRefFunc stateName config now inst).error = none
      ∧ (∃ item, (_tweenState stateRefFunc stateName config now inst).host.readState.tweenQueue
            = keptQueue config inst.readState ref stateName ++ [item]
          ∧ item.config.endValue = Val.undef)
      ∧ (_tweenState stateRefFunc stateName config now inst).host.readState.store ref stateName
          = Val.undef := by
  rw [tweenState_resolved_readState stateRefFunc stateName config now inst ref hres]
  refine ⟨tweenState_resolved_error stateRefFunc stateName config now inst ref hres, ?_, ?_⟩
  · exact ⟨_, rfl, hend⟩
  · simp [Store.set, hend]

/-- Witness of C10 (amended): the configuration `{}` registered on `x` over
`hostX`. -/
theorem registration_without_endValue_witness :
    returnState hostX.readState.store = some 0
      ∧ configNoEnd.endValue = Val.undef
      ∧ (_tweenState returnState "x" configNoEnd 50 hostX).error = none
      ∧ (_tweenState returnState "x" configNoEnd 50 hostX).host.readState.store 0 "x"
          = Val.undef :=
  have h := registration_without_endValue returnState "x" configNoEnd 50 hostX 0 rfl rfl
  ⟨rfl, rfl, h.1, h.2.2⟩

/-- C10, counterexample. The configuration `{}` supplies no `endValue`; the
public `tweenState('x', {})` on `hostX` raises nothing, the queue grows from
one request to two, and the field `x`, which held 100, now holds `undefined`. -/
theorem registration_without_endValue_counterexample :
    configNoEnd.endValue = Val.undef
      ∧ (tweenState (TweenArgs.named "x" configNoEnd) 50 hostX).error = none
      ∧ hostX.readState.tweenQueue.length = 1
      ∧ (tweenState (TweenArgs.named "x" configNoEnd) 50 hostX).host.readState.tweenQueue.length = 2
      ∧ hostX.readState.store 0 "x" = Val.num 100
      ∧ (tweenState (TweenArgs.named "x" configNoEnd) 50 hostX).host.readState.store 0 "x"
          = Val.undef := by
  refine ⟨rfl, ?_, rfl, ?_, rfl, ?_⟩
  · exact tweenState_resolved_error returnState "x" configNoEnd 50 hostX 0 rfl
  · show (_tweenState returnState "x" configNoEnd 50 hostX).host.readState.tweenQueue.length = 2
    rw [tweenState_resolved_readState returnState "x" configNoEnd 50 hostX 0 rfl]
    simp [keptQueue, configNoEnd, configBack, hostX, Host.readState]
  · show (_tweenState returnState "x" configNoEnd 50 hostX).host.readState.store 0 "x" = Val.undef
    rw [tweenState_resolved_readState returnState "x" configNoEnd 50 hostX 0 rfl]
    simp [Store.set, configNoEnd]
/-- The sample of `y` at time 50 after the two registrations of `hostTwiceY`:
the resting value 10 plus twice the deficit `5 - 10`. -/
theorem sample_hostTwiceY (store : Store) :
    getTweeningValue (hostTwiceY store) (Target.named "y") 50 = Except.ok (Val.num 0) := by
  simp [getTweeningValue, _getTweeningValue, hostTwiceY, tweenState, _tweenState, mkItem, configY,
    idleHost, returnState, getProp, normalize, Host.readState, Host.putState, Host.setState,
    startRaf, Host.requestAnimationFrame, Store.set, otherTarget, contrib, progressTime, linear,
    Val.add, Val.neg, Val.sub, Val.mul, Val.div]
  norm_num

/-- C8 (amended). With linear easing and the top-level field `y` resting at 0
on an idle host, after two ADDITIVE registrations on `y` issued at time 0,
each with `beginValue` 0, `endValue` 10, `duration` 100 and `delay` 0, the
sampler at time 50 returns 0: the resting value 10 plus two deficits of -5. -/
theorem two_additive_sample (store : Store) :
    getTweeningValue (hostTwiceY store) (Target.named "y") 50 = Except.ok (Val.num 0) :=
  sample_hostTwiceY store

/-- C8, counterexample. In the scenario of the claim the sampler at time 50
does not return 10. -/
theorem two_additive_sample_counterexample :
    getTweeningValue (hostTwiceY (fun _ _ => Val.undef)) (Target.named "y") 50
      ≠ Except.ok (Val.num 10) := by
  rw [sample_hostTwiceY]
  intro h
  injection h with h
  injection h with h
  norm_num at h

theorem readState_of_pending_none (h : Host) (hp : h._pendingState = none) :
    h.readState = h.state := by
  unfold Host.readState
  rw [hp]

theorem tweenState_resolved_pending (stateRefFunc : Locator) (stateName : String)
    (config : Config) (now : ℚ) (inst : Host) (ref : Ref)
    (hres : stateRefFunc inst.readState.store = some ref) (hp : inst._pendingState = none) :
    (_tweenState stateRefFunc stateName config now inst).host._pendingState = none := by
  rw [tweenState_resolved_host stateRefFunc stateName config now inst ref hres]
  simp only []
  split_ifs <;> exact (putState_pending_none inst _).mpr hp

/-- C9 (amended). On a host that is both the instance of the registration and
the receiver of the sampler, with an empty queue and no pending state, for a
field holding `v0` whose locator yields the same container before and after
the write of the end value: after one registration at time `t0` with linear
easing, end value `e`, duration `d`, delay 0 (supplied or defaulted) and no
`beginValue`, the sampler at every time `now` with `t0 <= now <= t0 + d`
returns `e + (-e + linear(now - t0, v0, e, d))`, that is
`e + (-e + ((e - v0) * (now - t0) / d + v0))` with the operations of the
program in its order. -/
theorem linear_sample (stateRefFunc : Locator) (stateName : String) (config : Config)
    (inst : Host) (ref : Ref) (v0 e : Val) (d t0 now : ℚ)
    (hp : inst._pendingState = none)
    (hq : inst.state.tweenQueue = [])
    (hres : stateRefFunc inst.state.store = some ref)
    (hres1 : stateRefFunc (Store.set inst.state.store ref stateName e) = some ref)
    (hv0 : inst.state.store ref stateName = v0)
    (heasing : config.easing = some linear)
    (hduration : config.duration = some d)
    (hdelay : config.delay.getD DEFAULT_DELAY = 0)
    (hbegin : config.beginValue = Val.undef)
    (hend : config.endValue = e)
    (hs0 : t0 ≤ now) (hsd : now ≤ t0 + d) :
    _getTweeningValue (_tweenState stateRefFunc stateName config t0 inst).host stateRefFunc
        stateName now
      = Except.ok (Val.add e (Val.add (Val.neg e)
          (Val.add (Val.div (Val.mul (Val.sub e v0) (Val.num (now - t0))) (Val.num d)) v0))) := by
  have hrs := readState_of_pending_none inst hp
  have hres0 : stateRefFunc inst.readState.store = some ref := by rw [hrs]; exact hres
  have hstate := tweenState_resolved_readState stateRefFunc stateName config t0 inst ref hres0
  rw [readState_of_pending_none _
    (tweenState_resolved_pending stateRefFunc stateName config t0 inst ref hres0 hp)] at hstate
  have hres2 : stateRefFunc (_tweenState stateRefFunc stateName config t0 inst).host.state.store
      = some ref := by
    rw [hstate, hrs, hend]
    exact hres1
  rw [sampler_eq_fold _ stateRefFunc stateName now ref hres2, hstate, hrs]
  have hprog : (if d < now - t0 then d else max 0 (now - t0)) = now - t0 := by
    rw [if_neg (by linarith), max_eq_right (by linarith)]
  simp [keptQueue, hq, builtItem, mkItem, normalize, beginValueOf, hbegin, hend, heasing,
    hduration, hdelay, hv0, hres1, addresses, Store.set, contrib, progressTime, hprog, linear]

/-- Witness of C9 (amended): `x` rests at 0, `{ endValue: 100, duration: 100,
easing: linear }` is registered at time 0, and the sample at time 50 is
`100 + (-100 + ((100 - 0) * 50 / 100 + 0))`, which is 50. -/
theorem linear_sample_witness :
    (0 : ℚ) ≤ 50 ∧ (50 : ℚ) ≤ 0 + 100
      ∧ _getTweeningValue
            (_tweenState returnState "x" configLinear 0 (idleHost (fun _ _ => Val.num 0))).host
            returnState "x" 50
          = Except.ok (Val.add (Val.num 100) (Val.add (Val.neg (Val.num 100))
              (Val.add (Val.div (Val.mul (Val.sub (Val.num 100) (Val.num 0)) (Val.num (50 - 0)))
                (Val.num 100)) (Val.num 0))))
      ∧ Val.add (Val.num 100) (Val.add (Val.neg (Val.num 100))
            (Val.add (Val.div (Val.mul (Val.sub (Val.num 100) (Val.num 0)) (Val.num (50 - 0)))
              (Val.num 100)) (Val.num 0)))
          = Val.num 50 :=
  ⟨by norm_num, by norm_num,
    linear_sample returnState "x" configLinear (idleHost (fun _ _ => Val.num 0)) 0 (Val.num 0)
      (Val.num 100) 100 0 50 rfl rfl rfl rfl rfl rfl rfl rfl rfl rfl (by norm_num) (by norm_num),
    by simp [Val.add, Val.neg, Val.sub, Val.mul, Val.div]⟩

/-- C9, counterexample. `x` rests at 0 on an idle host and
`{ endValue: Infinity, duration: 100, easing: linear }` is registered at time
0.  At time 50 the sampler computes `Infinity + (-Infinity + Infinity)` and
returns `NaN`, whereas direct interpolation `0 + (Infinity - 0) * 50 / 100`
is `Infinity`. -/
theorem linear_sample_counterexample :
    (0 : ℚ) < 100 ∧ (0 : ℚ) ≤ 50 ∧ (50 : ℚ) ≤ 100
      ∧ (idleHost (fun _ _ => Val.num 0)).state.store 0 "x" = Val.num 0
      ∧ configInf.endValue = Val.inf false
      ∧ _getTweeningValue
            (tweenState (TweenArgs.named "x" configInf) 0
              (idleHost (fun _ _ => Val.num 0))).host
            returnState "x" (0 + 50)
          = Except.ok Val.nan
      ∧ directInterpolation (Val.num 0) (Val.inf false) 50 100 = Val.inf false := by
  refine ⟨by norm_num, by norm_num, by norm_num, rfl, rfl, ?_, ?_⟩
  · simp [_getTweeningValue, tweenState, _tweenState, mkItem, configInf, configLinear, idleHost,
      returnState, getProp, normalize, Host.readState, Host.putState, Host.setState, startRaf,
      Host.requestAnimationFrame, Store.set, otherTarget, contrib, progressTime, linear, Val.add,
      Val.neg, Val.sub, Val.mul, Val.div, DEFAULT_DELAY]
    norm_num
  · simp [directInterpolation, Val.add, Val.sub, Val.mul, Val.div]
    norm_num

/-- C13. For every tick with a non-empty queue: whenever the loop over the
queue ends normally and leaves a host `h` that is not mounted, the tick
returns exactly `h`, so nothing is committed (state and queue are what the
callbacks left) and no frame callback is armed; in particular, when the
callbacks neither throw nor change the queue and the host they leave is not
mounted, the host after the tick is the host left by running the `onEnd`
callbacks of the expired requests, in queue order. -/
theorem tick_dead_host (cbs : Callbacks) (now : ℚ) (fuel : Nat) (self : Host)
    (hne : self.state.tweenQueue ≠ []) :
    (∀ (newTweenQueue : List Item) (h : Host) (invoked : List Nat),
        rafLoop cbs now self.state.queueId fuel 0 self.state.tweenQueue [] self []
          = LoopResult.done newTweenQueue h invoked →
        h.mounted = false →
        (_rafCb cbs now fuel self).error = none
          ∧ (_rafCb cbs now fuel self).invoked = invoked
          ∧ (_rafCb cbs now fuel self).host = h
          ∧ (_rafCb cbs now fuel self).host.readState = h.readState
          ∧ (_rafCb cbs now fuel self).host.rafPending = h.rafPending)
      ∧ ((∀ cb h, (cbs cb h).threw = false) →
          (∀ cb h, (cbs cb h).host.state.tweenQueue = h.state.tweenQueue) →
          self.state.tweenQueue.length < fuel →
          (runCallbacks cbs (expiredCallbacks now self.state.tweenQueue) self).mounted = false →
          (_rafCb cbs now fuel self).error = none
            ∧ (_rafCb cbs now fuel self).invoked = expiredCallbacks now self.state.tweenQueue
            ∧ (_rafCb cbs now fuel self).host
                = runCallbacks cbs (expiredCallbacks now self.state.tweenQueue) self) := by
  have hlen : ¬ self.state.tweenQueue.length = 0 := fun h0 => hne (List.length_eq_zero.mp h0)
  have hgen : ∀ (newTweenQueue : List Item) (h : Host) (invoked : List Nat),
      rafLoop cbs now self.state.queueId fuel 0 self.state.tweenQueue [] self []
        = LoopResult.done newTweenQueue h invoked →
      h.mounted = false →
      _rafCb cbs now fuel self = { host := h, invoked := invoked, error := none } := by
    intro newTweenQueue h invoked hloop hdead
    unfold _rafCb
    simp [hlen, hloop, hdead]
  constructor
  · intro newTweenQueue h invoked hloop hdead
    rw [hgen newTweenQueue h invoked hloop hdead]
    exact ⟨rfl, rfl, rfl, rfl, rfl⟩
  · intro hthrow hqueue hfuel hdead
    have hloop := rafLoop_quiet cbs now self.state.queueId self.state.tweenQueue hthrow hqueue
      fuel 0 [] self [] rfl (by omega)
    simp only [List.drop_zero, List.nil_append] at hloop
    rw [hgen _ _ _ hloop hdead]
    exact ⟨rfl, rfl, rfl⟩

/-- Witness of C13: the `onEnd` of the expired request of `hostOnEnd` unmounts
the host; after the tick the queue still holds that request and no frame
callback is armed. -/
theorem tick_dead_host_witness :
    hostOnEnd.state.tweenQueue ≠ []
      ∧ (runCallbacks unmountCallbacks (expiredCallbacks 100 hostOnEnd.state.tweenQueue)
          hostOnEnd).mounted = false
      ∧ (_rafCb unmountCallbacks 100 2 hostOnEnd).host
          = runCallbacks unmountCallbacks (expiredCallbacks 100 hostOnEnd.state.tweenQueue)
              hostOnEnd
      ∧ (_rafCb unmountCallbacks 100 2 hostOnEnd).host.readState.tweenQueue.length = 1
      ∧ (_rafCb unmountCallbacks 100 2 hostOnEnd).host.rafPending = 0 :=
  have hne : hostOnEnd.state.tweenQueue ≠ [] := by simp [hostOnEnd]
  have hdead : (runCallbacks unmountCallbacks (expiredCallbacks 100 hostOnEnd.state.tweenQueue)
      hostOnEnd).mounted = false := by
    simp [runCallbacks, expiredCallbacks, stillActive, hostOnEnd, hostX, itemOnEnd, itemX,
      unmountCallbacks]
  have h := (tick_dead_host unmountCallbacks 100 2 hostOnEnd hne).2 (fun _ _ => rfl)
    (fun _ _ => rfl) (by simp [hostOnEnd]) hdead
  ⟨hne, hdead, h.2.2,
    by
      rw [h.2.2]
      simp [runCallbacks, expiredCallbacks, stillActive, hostOnEnd, hostX, itemOnEnd, itemX,
        unmountCallbacks, Host.readState],
    by
      rw [h.2.2]
      simp [runCallbacks, expiredCallbacks, stillActive, hostOnEnd, hostX, itemOnEnd, itemX,
        unmountCallbacks]⟩
theorem get?_of_drop_eq_cons (arr : List Item) (i : Nat) (item : Item) (rest : List Item)
    (h : arr.drop i = item :: rest) : arr.get? i = some item ∧ arr.drop (i + 1) = rest := by
  constructor
  · have h1 : (arr.drop i).head? = some item := by rw [h]; rfl
    rw [List.head?_drop] at h1
    rw [List.get?_eq_getElem?]
    exact h1
  · have h2 : (arr.drop i).tail = rest := by rw [h]; rfl
    rw [List.tail_drop] at h2
    exact h2

theorem rafLoop_prefix (cbs : Callbacks) (now : ℚ) (qid : Nat) (arr : List Item) :
    ∀ (pre rest : List Item) (fuel i : Nat) (acc : List Item) (h : Host) (invoked : List Nat),
      h.state.tweenQueue = arr → arr.drop i = pre ++ rest →
      (∀ cb ∈ expiredCallbacks now pre, ∀ h,
        (cbs cb h).threw = false ∧ (cbs cb h).host.state.tweenQueue = h.state.tweenQueue) →
      rafLoop cbs now qid (fuel + pre.length) i arr acc h invoked
        = rafLoop cbs now qid fuel (i + pre.length) arr (acc ++ pre.filter (stillActive now))
            (runCallbacks cbs (expiredCallbacks now pre) h)
            (invoked ++ expiredCallbacks now pre) := by
  intro pre
  induction pre with
  | nil =>
    intro rest fuel i acc h invoked _ _ _
    simp [expiredCallbacks, runCallbacks]
  | cons item pre ih =>
    intro rest fuel i acc h invoked harr hdrop hquiet
    obtain ⟨hget, hdrop1⟩ := get?_of_drop_eq_cons arr i item (pre ++ rest) hdrop
    have hfuel : fuel + (item :: pre).length = (fuel + pre.length) + 1 := by
      simp only [List.length_cons]
      omega
    have hidx : i + (item :: pre).length = (i + 1) + pre.length := by
      simp only [List.length_cons]
      omega
    rw [hfuel, hidx]
    conv_lhs => unfold rafLoop
    simp only [hget]
    by_cases hact : now - item.initTime < item.config.duration
    · have hs : stillActive now item = true := by simp [stillActive, hact]
      have hquiet1 : ∀ cb ∈ expiredCallbacks now pre, ∀ h,
          (cbs cb h).threw = false
            ∧ (cbs cb h).host.state.tweenQueue = h.state.tweenQueue := by
        intro cb hcb
        apply hquiet
        simpa [expiredCallbacks, List.filter_cons, hs] using hcb
      rw [if_pos hact, ih rest fuel (i + 1) _ h invoked harr hdrop1 hquiet1]
      simp [List.filter_cons, hs, expiredCallbacks]
    · have hs : stillActive now item = false := by simp [stillActive, hact]
      rw [if_neg hact]
      cases hcb : item.config.onEnd with
      | none =>
        have hquiet1 : ∀ cb ∈ expiredCallbacks now pre, ∀ h,
            (cbs cb h).threw = false
              ∧ (cbs cb h).host.state.tweenQueue = h.state.tweenQueue := by
          intro cb hcb1
          apply hquiet
          simpa [expiredCallbacks, List.filter_cons, hs, hcb] using hcb1
        simp only []
        rw [ih rest fuel (i + 1) _ h invoked harr hdrop1 hquiet1]
        simp [List.filter_cons, hs, expiredCallbacks, hcb]
      | some cb =>
        have hquiet1 : ∀ cb ∈ expiredCallbacks now pre, ∀ h,
            (cbs cb h).threw = false
              ∧ (cbs cb h).host.state.tweenQueue = h.state.tweenQueue := by
          intro cb1 hcb1
          apply hquiet
          simp only [expiredCallbacks, List.filter_cons, hs, Bool.not_false, if_true,
            List.filterMap_cons, hcb, List.mem_cons]
          exact Or.inr hcb1
        have hhere : (cbs cb h).threw = false
            ∧ (cbs cb h).host.state.tweenQueue = h.state.tweenQueue := by
          apply hquiet
          simp [expiredCallbacks, List.filter_cons, hs, hcb]
        obtain ⟨hnothrow, hqueue⟩ := hhere
        simp only [hnothrow]
        have harr1 : (if (cbs cb h).host.state.queueId = qid
            then (cbs cb h).host.state.tweenQueue else arr) = arr := by
          split_ifs
          · rw [hqueue, harr]
          · rfl
        simp only [harr1]
        rw [ih rest fuel (i + 1) _ _ _ (by rw [hqueue, harr]) hdrop1 hquiet1]
        simp [List.filter_cons, hs, expiredCallbacks, hcb, runCallbacks]

/-- Whatever the callbacks do: when the loop of a tick ends on an exception,
the callback that threw is the last one invoked and the host is the one that
callback left. -/
theorem rafLoop_threw (cbs : Callbacks) (now : ℚ) (qid : Nat) :
    ∀ (fuel i : Nat) (arr acc : List Item) (h : Host) (invoked : List Nat)
      (h1 : Host) (invoked1 : List Nat) (cb : Nat),
      rafLoop cbs now qid fuel i arr acc h invoked = LoopResult.threw h1 invoked1 cb →
      invoked1.getLast? = some cb
        ∧ ∃ h0 : Host, (cbs cb h0).threw = true ∧ h1 = (cbs cb h0).host := by
  intro fuel
  induction fuel with
  | zero =>
    intro i arr acc h invoked h1 invoked1 cb hloop
    simp [rafLoop] at hloop
  | succ fuel ih =>
    intro i arr acc h invoked h1 invoked1 cb
    unfold rafLoop
    cases hget : arr.get? i with
    | none =>
      intro hloop
      simp at hloop
    | some item =>
      simp only []
      intro hloop
      by_cases hact : now - item.initTime < item.config.duration
      · rw [if_pos hact] at hloop
        exact ih _ _ _ _ _ _ _ _ hloop
      · rw [if_neg hact] at hloop
        cases hon : item.config.onEnd with
        | none =>
          simp only [hon] at hloop
          exact ih _ _ _ _ _ _ _ _ hloop
        | some cb1 =>
          simp only [hon] at hloop
          by_cases hthrew : (cbs cb1 h).threw = true
          · simp only [hthrew, if_true] at hloop
            injection hloop with hh hinv hcb
            subst hcb
            refine ⟨?_, h, hthrew, hh.symm⟩
            rw [← hinv]
            simp
          · simp only [hthrew] at hloop
            exact ih _ _ _ _ _ _ _ _ hloop

/-- C11 (amended). For every tick, whatever the callbacks do: if a callback
throws, the exception escapes the tick, the callback that threw is the last
one invoked, and the tick returns the host as that callback left it, so the
pruned queue is not committed and no frame callback is armed.  When the queue
is `pre ++ r :: post`, the callbacks of the expired requests of `pre` neither
throw nor change the queue, and `r` is expired with an `onEnd` that throws,
the callbacks invoked are exactly those of the expired requests of `pre`, in
queue order, followed by that of `r`: no `onEnd` of `post` is invoked. -/
theorem tick_callback_throws (cbs : Callbacks) (now : ℚ) (fuel : Nat) (self : Host) :
    (∀ (h1 : Host) (invoked1 : List Nat) (cb : Nat),
        rafLoop cbs now self.state.queueId fuel 0 self.state.tweenQueue [] self []
          = LoopResult.threw h1 invoked1 cb →
        (_rafCb cbs now fuel self).error = some (JSError.thrown cb)
          ∧ (_rafCb cbs now fuel self).invoked = invoked1
          ∧ invoked1.getLast? = some cb
          ∧ (_rafCb cbs now fuel self).host = h1
          ∧ ∃ h0 : Host, (cbs cb h0).threw = true ∧ h1 = (cbs cb h0).host)
      ∧ (∀ (pre post : List Item) (r : Item) (cb : Nat),
          self.state.tweenQueue = pre ++ r :: post →
          (∀ cb ∈ expiredCallbacks now pre, ∀ h,
            (cbs cb h).threw = false
              ∧ (cbs cb h).host.state.tweenQueue = h.state.tweenQueue) →
          stillActive now r = false →
          r.config.onEnd = some cb →
          (cbs cb (runCallbacks cbs (expiredCallbacks now pre) self)).threw = true →
          pre.length < fuel →
          (_rafCb cbs now fuel self).error = some (JSError.thrown cb)
            ∧ (_rafCb cbs now fuel self).invoked = expiredCallbacks now pre ++ [cb]
            ∧ (_rafCb cbs now fuel self).host
                = (cbs cb (runCallbacks cbs (expiredCallbacks now pre) self)).host) := by
  have hgen : ∀ (h1 : Host) (invoked1 : List Nat) (cb : Nat),
      rafLoop cbs now self.state.queueId fuel 0 self.state.tweenQueue [] self []
        = LoopResult.threw h1 invoked1 cb →
      _rafCb cbs now fuel self
        = { host := h1, invoked := invoked1, error := some (JSError.thrown cb) } := by
    intro h1 invoked1 cb hloop
    have hlen : ¬ self.state.tweenQueue.length = 0 := by
      intro h0
      have hq : self.state.tweenQueue = [] := List.length_eq_zero.mp h0
      rw [hq] at hloop
      cases fuel <;> simp [rafLoop] at hloop
    unfold _rafCb
    simp only [if_neg hlen, hloop]
  constructor
  · intro h1 invoked1 cb hloop
    obtain ⟨hlast, hex⟩ := rafLoop_threw cbs now _ _ _ _ _ _ _ _ _ _ hloop
    rw [hgen h1 invoked1 cb hloop]
    exact ⟨rfl, rfl, hlast, rfl, hex⟩
  · intro pre post r cb hq hquiet hexp hcb hthrows hfuel
    obtain ⟨k, hk⟩ : ∃ k, fuel = (k + 1) + pre.length := ⟨fuel - pre.length - 1, by omega⟩
    have hdrop0 : (self.state.tweenQueue).drop 0 = pre ++ r :: post := by
      rw [List.drop_zero, hq]
    have hadv := rafLoop_prefix cbs now self.state.queueId self.state.tweenQueue pre
      (r :: post) (k + 1) 0 [] self [] rfl hdrop0 hquiet
    have hdrop : (self.state.tweenQueue).drop (0 + pre.length) = r :: post := by
      rw [hq, Nat.zero_add, List.drop_left]
    obtain ⟨hget, _⟩ := get?_of_drop_eq_cons _ _ _ _ hdrop
    have hact : ¬ now - r.initTime < r.config.duration := by
      simpa [stillActive] using hexp
    have hloop : rafLoop cbs now self.state.queueId fuel 0 self.state.tweenQueue [] self []
        = LoopResult.threw (cbs cb (runCallbacks cbs (expiredCallbacks now pre) self)).host
            (expiredCallbacks now pre ++ [cb]) cb := by
      rw [hk, hadv]
      conv_lhs => unfold rafLoop
      simp only [hget, if_neg hact, hcb, hthrows, if_true, List.nil_append]
    rw [hgen _ _ _ hloop]
    exact ⟨rfl, rfl, rfl⟩

/-- Witness of C11 (amended): the first of the two expired requests of
`hostTwoOnEnd` has a callback that throws. -/
theorem tick_callback_throws_witness :
    hostTwoOnEnd.state.tweenQueue = [] ++ itemOnEnd :: [itemOnEnd1]
      ∧ (throwingCallbacks 0 (runCallbacks throwingCallbacks (expiredCallbacks 100 [])
          hostTwoOnEnd)).threw = true
      ∧ (_rafCb throwingCallbacks 100 3 hostTwoOnEnd).error = some (JSError.thrown 0)
      ∧ (_rafCb throwingCallbacks 100 3 hostTwoOnEnd).invoked = expiredCallbacks 100 [] ++ [0] :=
  have h := (tick_callback_throws throwingCallbacks 100 3 hostTwoOnEnd).2 [] [itemOnEnd1]
    itemOnEnd 0 rfl (by simp [expiredCallbacks])
    (by simp [stillActive, itemOnEnd, itemX]) rfl rfl (by simp)
  ⟨rfl, rfl, h.1, h.2.1⟩

/-- C11, counterexample. The queue of `hostTwoOnEnd` holds two expired
requests with the callbacks `0` and `1`; callback `0` throws and callback `1`
never does.  The tick lets the exception escape, callback `1` is not invoked,
and the queue is left with its two requests although none is still active. -/
theorem tick_callback_throws_counterexample :
    hostTwoOnEnd.mounted = true
      ∧ expiredCallbacks 100 hostTwoOnEnd.state.tweenQueue = [0, 1]
      ∧ (throwingCallbacks 0 hostTwoOnEnd).threw = true
      ∧ (∀ h, (throwingCallbacks 1 h).threw = false)
      ∧ (_rafCb throwingCallbacks 100 3 hostTwoOnEnd).error = some (JSError.thrown 0)
      ∧ 1 ∉ (_rafCb throwingCallbacks 100 3 hostTwoOnEnd).invoked
      ∧ hostTwoOnEnd.state.tweenQueue.filter (stillActive 100) = []
      ∧ (_rafCb throwingCallbacks 100 3 hostTwoOnEnd).host.readState.tweenQueue.length = 2 := by
  refine ⟨rfl, ?_, rfl, fun _ => rfl, ?_, ?_, ?_, ?_⟩
  · simp [expiredCallbacks, stillActive, hostTwoOnEnd, hostX, itemOnEnd, itemOnEnd1, itemX]
  · simp [_rafCb, rafLoop, hostTwoOnEnd, hostX, itemOnEnd, itemOnEnd1, itemX, throwingCallbacks]
  · simp [_rafCb, rafLoop, hostTwoOnEnd, hostX, itemOnEnd, itemOnEnd1, itemX, throwingCallbacks]
  · simp [stillActive, hostTwoOnEnd, hostX, itemOnEnd, itemOnEnd1, itemX]
  · simp [_rafCb, rafLoop, hostTwoOnEnd, hostX, itemOnEnd, itemOnEnd1, itemX, throwingCallbacks,
      Host.readState]
theorem tweenState_resolved_mounted (stateRefFunc : Locator) (stateName : String)
    (config : Config) (now : ℚ) (inst : Host) (ref : Ref)
    (hres : stateRefFunc inst.readState.store = some ref) :
    (_tweenState stateRefFunc stateName config now inst).host.mounted = inst.mounted := by
  rw [tweenState_resolved_host stateRefFunc stateName config now inst ref hres]
  simp only []
  split_ifs <;> exact putState_mounted inst _

/-- C12, at the failing input. `deadHost` is not mounted, `x` rests at 0, the
queue is empty and no frame callback is armed.  The registration
`tweenState('x', { endValue: 100, duration: 100, easing: linear })` raises
nothing but does not abort either: it leaves `x` at 100, commits a queue of
one request, and arms a frame callback, the host being still unmounted. -/
theorem registration_on_dead_host_mutates :
    deadHost.mounted = false
      ∧ deadHost.readState.store 0 "x" = Val.num 0
      ∧ deadHost.readState.tweenQueue.length = 0
      ∧ deadHost.rafPending = 0
      ∧ (tweenState (TweenArgs.named "x" configLinear) 0 deadHost).error = none
      ∧ (tweenState (TweenArgs.named "x" configLinear) 0 deadHost).host.mounted = false
      ∧ (tweenState (TweenArgs.named "x" configLinear) 0 deadHost).host.readState.store 0 "x"
          = Val.num 100
      ∧ (tweenState (TweenArgs.named "x" configLinear) 0 deadHost).host.readState.tweenQueue.length
          = 1
      ∧ (tweenState (TweenArgs.named "x" configLinear) 0 deadHost).host.rafPending = 1 := by
  refine ⟨rfl, rfl, rfl, rfl, ?_, ?_, ?_, ?_, ?_⟩
  · exact tweenState_resolved_error returnState "x" configLinear 0 deadHost 0 rfl
  · exact tweenState_resolved_mounted returnState "x" configLinear 0 deadHost 0 rfl
  · show (_tweenState returnState "x" configLinear 0 deadHost).host.readState.store 0 "x" = _
    rw [tweenState_resolved_readState returnState "x" configLinear 0 deadHost 0 rfl]
    simp [Store.set, configLinear]
  · show (_tweenState returnState "x" configLinear 0 deadHost).host.readState.tweenQueue.length = 1
    rw [tweenState_resolved_readState returnState "x" configLinear 0 deadHost 0 rfl]
    simp [keptQueue, configLinear, deadHost, idleHost, Host.readState]
  · show (_tweenState returnState "x" configLinear 0 deadHost).host.rafPending = 1
    rw [tweenState_resolved_rafPending returnState "x" configLinear 0 deadHost 0 rfl]
    simp [keptQueue, configLinear, deadHost, idleHost, Host.readState]

theorem traceRegistered_rafPending : traceRegistered.rafPending = 1 := by
  show (_tweenState returnState "x" configLinear 0 (idleHost (fun _ _ => Val.num 0))).host.rafPending
    = 1
  rw [tweenState_resolved_rafPending returnState "x" configLinear 0 _ 0 rfl]
  simp [keptQueue, configLinear, idleHost, Host.readState]

theorem traceEmptied_eval :
    traceEmptied.rafPending = 1 ∧ traceEmptied.readState.tweenQueue = [] := by
  simp [traceEmptied, runFrame, _rafCb, rafLoop, traceRegistered, tweenState, _tweenState, mkItem,
    configLinear, idleHost, idleCallbacks, returnState, getProp, normalize, Host.readState,
    Host.putState, Host.setState, startRaf, Host.requestAnimationFrame, DEFAULT_STACK_BEHAVIOR,
    DEFAULT_DELAY]

theorem traceRegisteredAgain_rafPending : traceRegisteredAgain.rafPending = 2 := by
  show (_tweenState returnState "x" configBack 100 traceEmptied).host.rafPending = 2
  rw [tweenState_resolved_rafPending returnState "x" configBack 100 _ 0 rfl]
  simp [keptQueue, configBack, traceEmptied_eval.1, traceEmptied_eval.2]

/-- C15, at the failing input. From an idle mounted host, with callbacks that
do nothing and ADDITIVE registrations only: a registration at time 0 arms one
frame callback; the frame at time 100 retires the request, commits the empty
queue and arms the next frame callback all the same; a registration made
before that frame finds a new queue of length 1 and invokes `startRaf` while
the callback armed by the tick has not run.  The host reached has two frame
callbacks armed. -/
theorem two_frame_callbacks_armed :
    Reachable idleCallbacks traceRegisteredAgain
      ∧ traceRegistered.rafPending = 1
      ∧ traceEmptied.readState.tweenQueue = []
      ∧ traceEmptied.rafPending = 1
      ∧ traceRegisteredAgain.mounted = true
      ∧ traceRegisteredAgain.rafPending = 2 := by
  refine ⟨?_, traceRegistered_rafPending, traceEmptied_eval.2, traceEmptied_eval.1, ?_,
    traceRegisteredAgain_rafPending⟩
  · apply Reachable.register
    apply Reachable.frame
    · apply Reachable.register
      exact Reachable.idle _
    · rw [traceRegistered_rafPending]
      exact Nat.one_pos
  · show (_tweenState returnState "x" configBack 100 traceEmptied).host.mounted = true
    rw [tweenState_resolved_mounted returnState "x" configBack 100 _ 0 rfl]
    simp [traceEmptied, runFrame, _rafCb, rafLoop, traceRegistered, tweenState, _tweenState,
      mkItem, configLinear, idleHost, idleCallbacks, returnState, getProp, normalize,
      Host.readState, Host.putState, Host.setState, startRaf, Host.requestAnimationFrame,
      DEFAULT_STACK_BEHAVIOR, DEFAULT_DELAY]

/-- C16, at the failing input. The queue of `hostOnEnd` holds one expired
request on `x` whose `onEnd` registers a DESTRUCTIVE request on `x`.  During
the tick at time 100 the callback runs and its registration succeeds: it
installs a new array holding the new request and writes the end value 0 into
`x`.  The tick then commits the array it built itself, which is empty: the new
request is not in the queue committed by this tick, nor in the queue after the
following frame. -/
theorem reentrant_destructive_lost :
    hostOnEnd.mounted = true
      ∧ (_rafCb replaceCallbacks 100 3 hostOnEnd).error = none
      ∧ (_rafCb replaceCallbacks 100 3 hostOnEnd).invoked = [0]
      ∧ (replaceCallbacks 0 hostOnEnd).host.readState.tweenQueue.length = 1
      ∧ (_rafCb replaceCallbacks 100 3 hostOnEnd).host.readState.store 0 "x" = Val.num 0
      ∧ (_rafCb replaceCallbacks 100 3 hostOnEnd).host.readState.tweenQueue = []
      ∧ (runFrame replaceCallbacks 116 3
          (_rafCb replaceCallbacks 100 3 hostOnEnd).host).readState.tweenQueue = [] := by
  have htick : (_rafCb replaceCallbacks 100 3 hostOnEnd).host
      = { state := { store := Store.set (fun _ _ => Val.num 100) 0 "x" (Val.num 0)
                     tweenQueue := []
                     queueId := 2 }
          _pendingState := none
          mounted := true
          rafPending := 2 } := by
    simp [_rafCb, rafLoop, hostOnEnd, hostX, itemOnEnd, itemX, replaceCallbacks, tweenState,
      _tweenState, mkItem, configDestructive, configBack, returnState, getProp, normalize,
      Host.readState, Host.putState, Host.setState, startRaf, Host.requestAnimationFrame,
      otherTarget]
  refine ⟨rfl, ?_, ?_, ?_, ?_, ?_, ?_⟩
  · simp [_rafCb, rafLoop, hostOnEnd, hostX, itemOnEnd, itemX, replaceCallbacks, tweenState,
      _tweenState, mkItem, configDestructive, configBack, returnState, getProp, normalize,
      Host.readState, Host.putState, Host.setState, startRaf, Host.requestAnimationFrame,
      otherTarget]
  · simp [_rafCb, rafLoop, hostOnEnd, hostX, itemOnEnd, itemX, replaceCallbacks, tweenState,
      _tweenState, mkItem, configDestructive, configBack, returnState, getProp, normalize,
      Host.readState, Host.putState, Host.setState, startRaf, Host.requestAnimationFrame,
      otherTarget]
  · simp [hostOnEnd, hostX, itemOnEnd, itemX, replaceCallbacks, tweenState,
      _tweenState, mkItem, configDestructive, configBack, returnState, getProp, normalize,
      Host.readState, Host.putState, Host.setState, startRaf, Host.requestAnimationFrame,
      otherTarget]
  · rw [htick]
    simp [Host.readState, Store.set]
  · rw [htick]
    rfl
  · rw [htick]
    simp [runFrame, _rafCb, Host.readState]

/-- The same tick with an `onEnd` that registers an ADDITIVE request: the
request is pushed onto the array the tick iterates over and is in the queue
the tick commits. -/
theorem reentrant_additive_kept :
    (_rafCb chainCallbacks 100 3 hostOnEnd).error = none
      ∧ (_rafCb chainCallbacks 100 3 hostOnEnd).host.readState.tweenQueue.map
            (fun item => item.config.endValue) = [Val.num 0] := by
  constructor <;>
    simp [_rafCb, rafLoop, hostOnEnd, hostX, itemOnEnd, itemX, chainCallbacks, tweenState,
      _tweenState, mkItem, configBack, returnState, getProp, normalize, Host.readState,
      Host.putState, Host.setState, startRaf, Host.requestAnimationFrame, DEFAULT_STACK_BEHAVIOR,
      DEFAULT_DURATION, DEFAULT_DELAY]

/-- C17, at the failing input. The field `x` rests at the end value `e` of
its only queued request, of duration 0, with linear easing and begin value
`b`.  At every time `now` the progress time is 0 and `linear` computes
`(e - b) * 0 / 0 + b`, where `0 / 0` is `NaN`: the sampler returns `NaN`, not
`e`, whatever `b` and `e`. -/
theorem zero_duration_sample_nan (b e now : ℚ) :
    (hostZero b e).state.store 0 "x" = (itemZero b e).config.endValue
      ∧ (itemZero b e).config.duration = 0
      ∧ _getTweeningValue (hostZero b e) returnState "x" now = Except.ok Val.nan := by
  refine ⟨rfl, rfl, ?_⟩
  have hp : progressTime now (itemZero b e) = 0 := by
    unfold progressTime
    simp only [itemZero]
    split_ifs
    · rfl
    · simp only [sub_zero] at *
      exact max_eq_left (by linarith)
  have hfilter : (hostZero b e).state.tweenQueue.filter
      (addresses (hostZero b e).state.store 0 "x") = [itemZero b e] := by
    simp [hostZero, addresses, itemZero, returnState]
  rw [sampler_eq_fold (hostZero b e) returnState "x" now 0 rfl, hfilter]
  simp only [List.map_cons, List.map_nil, List.foldl_cons, List.foldl_nil, contrib, hp]
  simp [hostZero, itemZero, linear, Val.sub, Val.mul, Val.div, Val.add, Val.neg]

/-- C18. For every registration at time `now` whose locator resolves, the
request stored last in the queue has `duration` equal to `config.duration`
when supplied (a supplied 0 is kept) and 300 otherwise, `delay` equal to
`config.delay` when supplied and 0 otherwise, `stackBehavior` equal to the
supplied one and `ADDITIVE` otherwise, `beginValue` equal to
`config.beginValue` when supplied and otherwise the value the target field had
in the state the registration read, and `initTime = now + delay`. -/
theorem registration_defaults (stateRefFunc : Locator) (stateName : String) (config : Config)
    (now : ℚ) (inst : Host) (ref : Ref)
    (hres : stateRefFunc inst.readState.store = some ref) :
    ∃ item : Item,
      (_tweenState stateRefFunc stateName config now inst).host.readState.tweenQueue.getLast?
          = some item
        ∧ item.config.duration = (match config.duration with | some d => d | none => 300)
        ∧ item.config.delay = (match config.delay with | some d => d | none => 0)
        ∧ item.config.stackBehavior
            = (match config.stackBehavior with
                | some s => s
                | none => StackBehavior.ADDITIVE)
        ∧ item.config.beginValue
            = (if config.beginValue = Val.undef then inst.readState.store ref stateName
                else config.beginValue)
        ∧ item.initTime = now + item.config.delay := by
  refine ⟨builtItem stateRefFunc stateName config now inst.readState ref, ?_, ?_, ?_, ?_, ?_, ?_⟩
  · rw [tweenState_resolved_readState stateRefFunc stateName config now inst ref hres]
    simp
  · cases h : config.duration <;> simp [builtItem, mkItem, normalize, h, DEFAULT_DURATION]
  · cases h : config.delay <;> simp [builtItem, mkItem, normalize, h, DEFAULT_DELAY]
  · cases h : config.stackBehavior <;>
      simp [builtItem, mkItem, normalize, h, DEFAULT_STACK_BEHAVIOR]
  · rfl
  · rfl

/-- Witness of C18: `{ endValue: 0, duration: 0 }` registered on `x` over
`hostX` at time 50; the supplied duration 0 is kept and the begin value is the
resting value 100. -/
theorem registration_defaults_witness :
    returnState hostX.readState.store = some 0
      ∧ configInstant.duration = some 0
      ∧ ∃ item : Item,
          (_tweenState returnState "x" configInstant 50 hostX).host.readState.tweenQueue.getLast?
              = some item
            ∧ item.config.duration = 0
            ∧ item.config.delay = 0
            ∧ item.config.stackBehavior = StackBehavior.ADDITIVE
            ∧ item.config.beginValue = Val.num 100
            ∧ item.initTime = 50 + item.config.delay := by
  obtain ⟨item, h1, h2, h3, h4, h5, h6⟩ :=
    registration_defaults returnState "x" configInstant 50 hostX 0 rfl
  exact ⟨rfl, rfl, item, h1, h2, h3, h4, h5, h6⟩

theorem putState_readState (h : Host) : h.putState h.readState = h := by
  unfold Host.putState Host.readState
  cases hp : h._pendingState with
  | none =>
    cases h
    simp_all
  | some p =>
    cases h
    simp_all

/-- A registration whose locator yields `null`/`undefined` raises a
`TypeError` and leaves the host as it was when no `beginValue` is supplied
(line 59 throws first) or when the stacking mode is DESTRUCTIVE (line 72
pushes onto a copy). -/
theorem tweenState_unresolved_unchanged (stateRefFunc : Locator) (stateName : String)
    (config : Config) (now : ℚ) (inst : Host)
    (hnone : stateRefFunc inst.readState.store = none)
    (hcase : config.beginValue = Val.undef
      ∨ config.stackBehavior = some StackBehavior.DESTRUCTIVE) :
    (_tweenState stateRefFunc stateName config now inst).error = some JSError.typeError
      ∧ (_tweenState stateRefFunc stateName config now inst).host = inst := by
  unfold _tweenState
  simp only [hnone, getProp]
  by_cases hb : config.beginValue = Val.undef
  · simp [hb]
  · rcases hcase with h | h
    · exact absurd h hb
    · simp [hb, normalize_stackBehavior_destructive, h, putState_readState]

/-- C19, at the failing input. The locator yields `null`, the stacking mode
is ADDITIVE (left out) and a `beginValue` is supplied, so line 59 does not
read the container.  The registration raises a `TypeError` on line 81, but the
`push` of line 72 has already acted in place on the queue held by the state:
the queue has grown from one request to two.  No field has been written. -/
theorem unresolved_additive_pushes :
    nullLocator hostX.readState.store = none
      ∧ (tweenState (TweenArgs.located nullLocator "x" configBegin) 50 hostX).error
          = some JSError.typeError
      ∧ hostX.readState.tweenQueue.length = 1
      ∧ (tweenState (TweenArgs.located nullLocator "x" configBegin) 50
          hostX).host.readState.tweenQueue.length = 2
      ∧ (tweenState (TweenArgs.located nullLocator "x" configBegin) 50
          hostX).host.readState.store = hostX.readState.store := by
  refine ⟨rfl, ?_, rfl, ?_, ?_⟩ <;>
    simp [tweenState, _tweenState, mkItem, nullLocator, configBegin, configBack, hostX, getProp,
      normalize, Host.readState, Host.putState, DEFAULT_STACK_BEHAVIOR]

theorem rafLoop_state (cbs : Callbacks) (now : ℚ) (qid : Nat) (arr : List Item)
    (hcb : ∀ cb h, (cbs cb h).host.state = h.state
      ∧ (cbs cb h).host._pendingState = h._pendingState) :
    ∀ (fuel i : Nat) (acc : List Item) (h : Host) (invoked : List Nat),
      h.state.tweenQueue = arr →
      match rafLoop cbs now qid fuel i arr acc h invoked with
      | LoopResult.done newTweenQueue h1 _ =>
        newTweenQueue = acc ++ (arr.drop i).filter (stillActive now)
          ∧ h1.state = h.state ∧ h1._pendingState = h._pendingState
      | LoopResult.threw h1 _ _ => h1.state = h.state ∧ h1._pendingState = h._pendingState
      | LoopResult.outOfFuel h1 _ => h1.state = h.state ∧ h1._pendingState = h._pendingState := by
  intro fuel
  induction fuel with
  | zero =>
    intro i acc h invoked _
    simp [rafLoop]
  | succ fuel ih =>
    intro i acc h invoked harr
    unfold rafLoop
    cases hget : arr.get? i with
    | none =>
      have hdrop : arr.drop i = [] := List.drop_eq_nil_of_le (List.get?_eq_none.mp hget)
      simp [hdrop]
    | some item =>
      obtain ⟨hi, hitem⟩ := List.get?_eq_some.mp hget
      have hdrop : arr.drop i = item :: arr.drop (i + 1) := by
        rw [List.drop_eq_getElem_cons hi]
        simp at hitem
        rw [hitem]
      simp only []
      by_cases hact : now - item.initTime < item.config.duration
      · have hs : stillActive now item = true := by simp [stillActive, hact]
        rw [if_pos hact]
        have := ih (i + 1) (acc ++ [item]) h invoked harr
        rw [hdrop]
        simpa [List.filter_cons, hs] using this
      · have hs : stillActive now item = false := by simp [stillActive, hact]
        rw [if_neg hact]
        cases hon : item.config.onEnd with
        | none =>
          simp only []
          have := ih (i + 1) acc h invoked harr
          rw [hdrop]
          simpa [List.filter_cons, hs] using this
        | some cb =>
          simp only []
          obtain ⟨hst, hpend⟩ := hcb cb h
          by_cases hthrew : (cbs cb h).threw = true
          · simp [hthrew, hst, hpend]
          · have harr1 : (if (cbs cb h).host.state.queueId = qid
                then (cbs cb h).host.state.tweenQueue else arr) = arr := by
              split_ifs
              · rw [hst, harr]
              · rfl
            simp only [hthrew, harr1]
            have := ih (i + 1) acc (cbs cb h).host (invoked ++ [cb]) (by rw [hst, harr])
            rw [hdrop, ← hst, ← hpend]
            simpa [List.filter_cons, hs] using this

/-- The state a tick leaves when no callback modifies the state: the
containers are untouched and the queue is either untouched or pruned. -/
theorem tick_state (cbs : Callbacks) (now : ℚ) (fuel : Nat) (self : Host)
    (hcb : ∀ cb h, (cbs cb h).host.state = h.state
      ∧ (cbs cb h).host._pendingState = h._pendingState) :
    (_rafCb cbs now fuel self).host.state.store = self.state.store
      ∧ ((_rafCb cbs now fuel self).host.state.tweenQueue = self.state.tweenQueue
        ∨ (_rafCb cbs now fuel self).host.state.tweenQueue
            = self.state.tweenQueue.filter (stillActive now)) := by
  unfold _rafCb
  simp only []
  split_ifs with hlen
  · exact ⟨rfl, Or.inl rfl⟩
  · have hloop := rafLoop_state cbs now self.state.queueId self.state.tweenQueue hcb fuel 0 []
      self [] rfl
    cases hres : rafLoop cbs now self.state.queueId fuel 0 self.state.tweenQueue [] self [] with
    | threw h1 invoked cb =>
      rw [hres] at hloop
      simp only [] at hloop ⊢
      rw [hloop.1]
      exact ⟨rfl, Or.inl rfl⟩
    | outOfFuel h1 invoked =>
      rw [hres] at hloop
      simp only [] at hloop ⊢
      rw [hloop.1]
      exact ⟨rfl, Or.inl rfl⟩
    | done newTweenQueue h1 invoked =>
      rw [hres] at hloop
      simp only [List.drop_zero, List.nil_append] at hloop ⊢
      obtain ⟨hq, hst, hpend⟩ := hloop
      split_ifs with hm
      · rw [hst]
        exact ⟨rfl, Or.inl rfl⟩
      · cases hp : h1._pendingState with
        | none =>
          simp [Host.setState, Host.putState, Host.readState, Host.requestAnimationFrame, hp,
            hst, hq]
        | some p =>
          simp [Host.setState, Host.putState, Host.readState, Host.requestAnimationFrame, hp,
            hst]

theorem Val.add_num_zero (a : Val) (ha : a ≠ Val.undef) : Val.add a (Val.num 0) = a := by
  cases a <;> simp_all [Val.add]

theorem Val.add_ne_undef (a b : Val) : Val.add a b ≠ Val.undef := by
  cases a <;> cases b <;> simp only [Val.add] <;> (try split_ifs) <;> simp

/-- A request that a tick at time `now` finds expired contributes zero to
every later sample. -/
theorem contrib_expired (now later : ℚ) (item : Item) (e : ℚ)
    (hd : 0 ≤ item.config.duration)
    (he : item.config.endValue = Val.num e)
    (heasing : item.config.easing item.config.duration item.config.beginValue
      item.config.endValue item.config.duration = item.config.endValue)
    (hexp : stillActive now item = false)
    (hnow : now ≤ later) :
    contrib later item = Val.num 0 := by
  have hact : ¬ now - item.initTime < item.config.duration := by
    simpa [stillActive] using hexp
  have hp : progressTime later item = item.config.duration := by
    unfold progressTime
    split_ifs with h
    · rfl
    · have : later - item.initTime = item.config.duration :=
        le_antisymm (le_of_not_lt h) (by linarith [le_of_not_lt hact])
      rw [this, max_eq_right hd]
  unfold contrib
  rw [hp, heasing, he]
  simp [Val.add, Val.neg]

theorem sample_fold_retire (store : Store) (stateRef : Option Ref) (stateName : String)
    (now later : ℚ) (hnow : now ≤ later) :
    ∀ (q : List Item) (base : Val), base ≠ Val.undef →
      (∀ item ∈ q, 0 ≤ item.config.duration
        ∧ (∃ e : ℚ, item.config.endValue = Val.num e)
        ∧ item.config.easing item.config.duration item.config.beginValue
            item.config.endValue item.config.duration = item.config.endValue) →
      (q.filter (stillActive now)).foldl (fun tweeningValue item =>
          if otherTarget store stateRef stateName item then tweeningValue
          else Val.add tweeningValue (contrib later item)) base
        = q.foldl (fun tweeningValue item =>
          if otherTarget store stateRef stateName item then tweeningValue
          else Val.add tweeningValue (contrib later item)) base := by
  intro q
  induction q with
  | nil => intro base _ _; rfl
  | cons item rest ih =>
    intro base hbase hitems
    have hrest : ∀ it ∈ rest, 0 ≤ it.config.duration
        ∧ (∃ e : ℚ, it.config.endValue = Val.num e)
        ∧ it.config.easing it.config.duration it.config.beginValue
            it.config.endValue it.config.duration = it.config.endValue :=
      fun it hit => hitems it (List.mem_cons_of_mem _ hit)
    obtain ⟨hd, ⟨e, he⟩, heasing⟩ := hitems item (List.mem_cons_self _ _)
    cases hs : stillActive now item
    · have hzero := contrib_expired now later item e hd he heasing hs hnow
      have hstep : (if otherTarget store stateRef stateName item then base
          else Val.add base (contrib later item)) = base := by
        split_ifs
        · rfl
        · rw [hzero, Val.add_num_zero base hbase]
      simp only [List.filter_cons, hs, List.foldl_cons, hstep]
      exact ih base hbase hrest
    · have hne : (if otherTarget store stateRef stateName item then base
          else Val.add base (contrib later item)) ≠ Val.undef := by
        split_ifs
        · exact hbase
        · exact Val.add_ne_undef _ _
      simp only [List.filter_cons, hs, if_true, List.foldl_cons]
      exact ih _ hne hrest

/-- C20 (amended). For every state whose queued requests all have a duration
`>= 0`, a finite number as end value and an easing with `easing(d,b,e,d) = e`,
every tick at time `now` whose `onEnd` callbacks do not modify the host state,
and every target whose field is not `undefined`: the sampler applied to the
host the tick leaves returns, at every time `later >= now`, the same value as
the sampler applied to the host before the tick; and every request the tick
finds expired (`now - initTime < duration` false) contributes exactly zero to
the sum at such a time. -/
theorem retire_invisible (cbs : Callbacks) (now later : ℚ) (fuel : Nat) (self : Host)
    (stateRefFunc : Locator) (stateName : String)
    (hcb : ∀ cb h, (cbs cb h).host.state = h.state
      ∧ (cbs cb h).host._pendingState = h._pendingState)
    (hitems : ∀ item ∈ self.state.tweenQueue, 0 ≤ item.config.duration
      ∧ (∃ e : ℚ, item.config.endValue = Val.num e)
      ∧ item.config.easing item.config.duration item.config.beginValue
          item.config.endValue item.config.duration = item.config.endValue)
    (hbase : ∀ ref, stateRefFunc self.state.store = some ref →
      self.state.store ref stateName ≠ Val.undef)
    (hnow : now ≤ later) :
    _getTweeningValue (_rafCb cbs now fuel self).host stateRefFunc stateName later
        = _getTweeningValue self stateRefFunc stateName later
      ∧ ∀ item ∈ self.state.tweenQueue, stillActive now item = false →
          contrib later item = Val.num 0 := by
  constructor
  · obtain ⟨hstore, hqueue⟩ := tick_state cbs now fuel self hcb
    unfold _getTweeningValue
    simp only [hstore]
    cases hres : stateRefFunc self.state.store with
    | none => rfl
    | some ref =>
      simp only [getProp]
      congr 1
      rcases hqueue with hq | hq
      · rw [hq]
      · rw [hq]
        exact sample_fold_retire self.state.store (some ref) stateName now later hnow _ _
          (hbase ref hres) hitems
  · intro item hitem hexp
    obtain ⟨hd, ⟨e, he⟩, heasing⟩ := hitems item hitem
    exact contrib_expired now later item e hd he heasing hexp hnow

theorem hostOnEnd_items :
    ∀ item ∈ hostOnEnd.state.tweenQueue, 0 ≤ item.config.duration
      ∧ (∃ e : ℚ, item.config.endValue = Val.num e)
      ∧ item.config.easing item.config.duration item.config.beginValue
          item.config.endValue item.config.duration = item.config.endValue := by
  intro item hitem
  have h : item = itemOnEnd := by simpa [hostOnEnd] using hitem
  subst h
  refine ⟨by simp [itemOnEnd, itemX], ⟨100, rfl⟩, ?_⟩
  simp [itemOnEnd, itemX, linear, Val.sub, Val.mul, Val.div, Val.add]

/-- Witness of C20 (amended): `hostOnEnd` ticked at time 100 with callbacks
that do nothing, sampled at time 250. -/
theorem retire_invisible_witness :
    (∀ item ∈ hostOnEnd.state.tweenQueue, 0 ≤ item.config.duration
        ∧ (∃ e : ℚ, item.config.endValue = Val.num e)
        ∧ item.config.easing item.config.duration item.config.beginValue
            item.config.endValue item.config.duration = item.config.endValue)
      ∧ (100 : ℚ) ≤ 250
      ∧ _getTweeningValue (_rafCb idleCallbacks 100 2 hostOnEnd).host returnState "x" 250
          = _getTweeningValue hostOnEnd returnState "x" 250 :=
  ⟨hostOnEnd_items, by norm_num,
    (retire_invisible idleCallbacks 100 250 2 hostOnEnd returnState "x" (fun _ _ => ⟨rfl, rfl⟩)
      hostOnEnd_items (fun _ _ => by simp [hostOnEnd, hostX]) (by norm_num)).1⟩

/-- C20, counterexample. The only request of `hostOnEnd` has duration 100 and
an easing that ends on its end value; the host is mounted; its `onEnd` chains
the next animation and does not throw.  Before the tick at time 100 the
sampler gives 100 for `x` at time 250; applied to the state the tick commits
it gives 50. -/
theorem retire_invisible_counterexample :
    hostOnEnd.mounted = true
      ∧ (∀ item ∈ hostOnEnd.state.tweenQueue, 0 ≤ item.config.duration
          ∧ item.config.easing item.config.duration item.config.beginValue
              item.config.endValue item.config.duration = item.config.endValue)
      ∧ (_rafCb chainCallbacks 100 3 hostOnEnd).error = none
      ∧ (100 : ℚ) ≤ 250
      ∧ _getTweeningValue hostOnEnd returnState "x" 250 = Except.ok (Val.num 100)
      ∧ _getTweeningValue (_rafCb chainCallbacks 100 3 hostOnEnd).host returnState "x" 250
          = Except.ok (Val.num 50) := by
  refine ⟨rfl, fun item hitem => ⟨(hostOnEnd_items item hitem).1, (hostOnEnd_items item hitem).2.2⟩,
    ?_, by norm_num, ?_, ?_⟩
  · simp [_rafCb, rafLoop, hostOnEnd, hostX, itemOnEnd, itemX, chainCallbacks, tweenState,
      _tweenState, mkItem, configBack, returnState, getProp, normalize, Host.readState,
      Host.putState, Host.setState, startRaf, Host.requestAnimationFrame, DEFAULT_STACK_BEHAVIOR,
      DEFAULT_DURATION, DEFAULT_DELAY]
  · simp [_getTweeningValue, hostOnEnd, hostX, itemOnEnd, itemX, returnState, getProp,
      otherTarget, contrib, progressTime, linear, Val.add, Val.neg, Val.sub, Val.mul, Val.div]
    norm_num
  · simp [_getTweeningValue, _rafCb, rafLoop, hostOnEnd, hostX, itemOnEnd, itemX, chainCallbacks,
      tweenState, _tweenState, mkItem, configBack, returnState, getProp, normalize,
      Host.readState, Host.putState, Host.setState, startRaf, Host.requestAnimationFrame,
      DEFAULT_STACK_BEHAVIOR, DEFAULT_DURATION, DEFAULT_DELAY, DEFAULT_EASING, Store.set,
      otherTarget, contrib, progressTime, easeInOutQuad, Val.add, Val.neg, Val.sub, Val.mul,
      Val.div, Val.lt]
    norm_num

/-- Why C20 asks for finite end values and a field that is not `undefined`.
With every field `undefined`, the sample of `x` at time 100 is `NaN` before
the tick at time 100 retires the only request, and `undefined` after; with the
end value `Infinity` it is `NaN` before and `Infinity` after. -/
theorem retire_visible_without_numbers :
    _getTweeningValue hostUndefined returnState "x" 100 = Except.ok Val.nan
      ∧ _getTweeningValue (_rafCb idleCallbacks 100 2 hostUndefined).host returnState "x" 100
          = Except.ok Val.undef
      ∧ _getTweeningValue hostInfLinear returnState "x" 100 = Except.ok Val.nan
      ∧ _getTweeningValue (_rafCb idleCallbacks 100 2 hostInfLinear).host returnState "x" 100
          = Except.ok (Val.inf false) := by
  refine ⟨?_, ?_, ?_, ?_⟩
  · simp [_getTweeningValue, hostUndefined, hostX, itemX, returnState, getProp, otherTarget,
      contrib, progressTime, linear, Val.add, Val.neg, Val.sub, Val.mul, Val.div]
  · simp [_getTweeningValue, _rafCb, rafLoop, idleCallbacks, hostUndefined, hostX, itemX,
      returnState, getProp, Host.readState, Host.putState, Host.setState,
      Host.requestAnimationFrame]
  · simp [_getTweeningValue, hostInfLinear, hostX, itemInfLinear, itemX, returnState, getProp,
      otherTarget, contrib, progressTime, linear, Val.add, Val.neg, Val.sub, Val.mul, Val.div]
  · simp [_getTweeningValue, _rafCb, rafLoop, idleCallbacks, hostInfLinear, hostX, itemInfLinear,
      itemX, returnState, getProp, Host.readState, Host.putState, Host.setState,
      Host.requestAnimationFrame]

end TweenState
